import Mathlib

set_option maxRecDepth 8000
set_option maxHeartbeats 1000000

/-!
# Verification of the `myscheduler` discrete-event scheduler simulator

Shallow embedding of the Python sources (`core/system.py`, `core/process.py`,
`core/event.py`, `core/device.py`, `core/scheduler.py`, `core/syscall.py`,
`myscheduler.py`) into Lean.  Mutable objects become explicit state passing on
a `State` record; the CPython `heapq` module used for the event queue is
embedded verbatim (its `heappush`/`heappop`/`_siftdown`/`_siftup` loops) over
`List Event`; Python `sorted`/`list.sort` (stable) is embedded as a stable
insertion sort; uncaught Python exceptions (`KeyError`, `ValueError`,
`IndexError`, `ZeroDivisionError`) become a sticky `error` field that aborts
the run loop.  All times are `Nat` microseconds, as in the source.
-/

namespace MyScheduler

open List

/-- Constants from `myscheduler.py`: `CONTEXT_SWITCH_IN = 5`. -/
def CONTEXT_SWITCH_IN : Nat := 5

/-- Constants from `myscheduler.py`: `CONTEXT_SWITCH_MOVES = 10`. -/
def CONTEXT_SWITCH_MOVES : Nat := 10

/-- Constants from `myscheduler.py`: `BUS_ACQUIRE_DELAY = 20`. -/
def BUS_ACQUIRE_DELAY : Nat := 20

/-- `core/syscall.py`: `SystemCall(when, name, args)`. -/
structure SystemCall where
  when : Nat
  name : String
  args : List String
deriving DecidableEq, Repr, Inhabited

/-- The five process states of `core/process.py` (`'NEW'`, `'READY'`, …). -/
inductive PState
  | NEW
  | READY
  | RUNNING
  | BLOCKED
  | EXIT
deriving DecidableEq, Repr, Inhabited

/-- `Process.blocked_reason` tuples from `core/system.py`:
`('io', device, op, size, request_id)`, `('sleep', duration)`, `('wait', None)`. -/
inductive BlockedReason
  | io (device : String) (op : String) (size : Nat) (request_id : Nat)
  | sleepFor (duration : Nat)
  | waitChildren
deriving DecidableEq, Repr

/-- `core/process.py`: class `Process`.  Python stores child `Process`
references; we store child pids and look them up in the process table
(references alias the table, so this is the same data). -/
structure Process where
  pid : Nat
  ppid : Option Nat
  command_name : String
  syscalls : List SystemCall
  pc : Nat
  state : PState
  cpu_time_executed : Nat
  children : List Nat
  waiting_for_children : Bool
  blocked_reason : Option BlockedReason
deriving DecidableEq, Repr

/-- `Process.time_until_next_syscall`: `None` past the end, else
`max(0, next_when - cpu_time_executed)`; `Nat` subtraction is that `max`. -/
def Process.time_until_next_syscall (p : Process) : Option Nat :=
  match p.syscalls[p.pc]? with
  | none => none
  | some sc => some (sc.when - p.cpu_time_executed)

/-- `Process.current_syscall`: `syscalls[pc]` if in range, else `None`. -/
def Process.current_syscall (p : Process) : Option SystemCall :=
  p.syscalls[p.pc]?

/-- Payload dicts used by `core/system.py`: `{'reason': r}`, `{'from': f}`,
and `{'device': name, 'request_id': id}`. -/
inductive Payload
  | reason (r : String)
  | fromTag (f : String)
  | ioInfo (device : String) (request_id : Nat)
deriving DecidableEq, Repr

/-- `core/event.py`: `EventType`. -/
inductive EventType
  | PROCESS_ARRIVAL
  | DISPATCH_COMPLETE
  | RUN_COMPLETE
  | SYSCALL_INVOKED
  | IO_COMPLETE
  | SLEEP_COMPLETE
  | BLOCKED_TO_READY
  | PROCESS_EXIT
  | SPAWN
  | WAIT_COMPLETE
  | CPU_AVAILABLE
deriving DecidableEq, Repr

/-- `core/event.py`: `@dataclass(order=True) class Event` with
`order`, `type`, `process`, `payload` all `field(compare=False)`.
`process` is the pid of the referenced process. -/
structure Event where
  time : Nat
  order : Nat
  type : EventType
  process : Option Nat
  payload : Option Payload
deriving DecidableEq, Repr

instance : Inhabited Event := ⟨⟨0, 0, .CPU_AVAILABLE, none, none⟩⟩

/-- The `<` generated by `dataclass(order=True)`: only `time` has
`compare=True`, so `Event` comparison is on `time` alone. -/
def evLt (a b : Event) : Bool := a.time < b.time

/-! ## CPython `heapq`, embedded verbatim over `List Event`

`_siftdown`, `_siftup`, `heappush`, `heappop` from CPython's `heapq.py`
(the pure-Python reference implementation), with list mutation made explicit
via `List.set` / `List.getD`.  Indices on all reachable calls are in range,
so `getD` never supplies its default. -/

/-- `heapq._siftdown(heap, startpos, pos)` after reading
`newitem = heap[pos]`: walk `pos` up toward `startpos`, copying down each
parent larger than `newitem`, then store `newitem`.  The loop is driven by
structural fuel so that it computes by kernel reduction; `fuel = pos`
strictly bounds the number of iterations (each one strictly decreases
`pos`, which stays nonnegative), and on fuel exhaustion `pos = startpos`
necessarily holds, so both exits store `newitem` just as the Python loop
does. -/
def siftdownAux : Nat → List Event → Nat → Nat → Event → List Event
  | 0, heap, _, pos, newitem => heap.set pos newitem
  | fuel + 1, heap, startpos, pos, newitem =>
    if startpos < pos then
      let parentpos := (pos - 1) / 2
      let parent := heap.getD parentpos default
      if evLt newitem parent then
        siftdownAux fuel (heap.set pos parent) startpos parentpos newitem
      else
        heap.set pos newitem
    else
      heap.set pos newitem

/-- `heapq._siftdown(heap, startpos, pos)`. -/
def siftdown (heap : List Event) (startpos pos : Nat) : List Event :=
  siftdownAux pos heap startpos pos (heap.getD pos default)

/-- The loop of `heapq._siftup`: bubble the smaller child up until hitting a
leaf, then place `newitem` and sift it down.  The Python
`childpos = rightpos if rightpos < endpos and not heap[childpos] < heap[rightpos]`
is expanded into nested conditionals.  Structural fuel again drives the
loop; `fuel = endpos` strictly bounds the iteration count (each iteration
increases `pos` by at least one while `pos < endpos`), and on exhaustion the
leaf step is taken exactly as in Python. -/
def siftupAux : Nat → List Event → Nat → Nat → Nat → Event → List Event
  | 0, heap, _, startpos, pos, newitem => siftdown (heap.set pos newitem) startpos pos
  | fuel + 1, heap, endpos, startpos, pos, newitem =>
    if 2 * pos + 1 < endpos then
      if 2 * pos + 2 < endpos then
        if evLt (heap.getD (2 * pos + 1) default) (heap.getD (2 * pos + 2) default) then
          siftupAux fuel (heap.set pos (heap.getD (2 * pos + 1) default)) endpos startpos
            (2 * pos + 1) newitem
        else
          siftupAux fuel (heap.set pos (heap.getD (2 * pos + 2) default)) endpos startpos
            (2 * pos + 2) newitem
      else
        siftupAux fuel (heap.set pos (heap.getD (2 * pos + 1) default)) endpos startpos
          (2 * pos + 1) newitem
    else
      siftdown (heap.set pos newitem) startpos pos

/-- `heapq._siftup(heap, pos)`: `endpos = len(heap)`, `startpos = pos`,
`newitem = heap[pos]`. -/
def siftup (heap : List Event) (pos : Nat) : List Event :=
  siftupAux heap.length heap heap.length pos pos (heap.getD pos default)

/-- `heapq.heappush`: append then `_siftdown(heap, 0, len(heap)-1)`. -/
def heappush (heap : List Event) (item : Event) : List Event :=
  siftdown (heap ++ [item]) 0 heap.length

/-- `heapq.heappop`: pop the last element; if the heap is still nonempty,
return the root, move the last element to the root and `_siftup`.  Returns
`none` on an empty heap (Python raises `IndexError`; every caller guards). -/
def heappop (heap : List Event) : Option (Event × List Event) :=
  match heap.getLast? with
  | none => none
  | some lastelt =>
    let rest := heap.dropLast
    if rest = [] then
      some (lastelt, [])
    else
      some (rest.getD 0 default, siftup (rest.set 0 lastelt) 0)

/-! ## Python stable sorting (`sorted`, `list.sort`) -/

/-- Insert `x` after every element `y` with `le y x` (so equal keys keep
their original relative order, as Python's stable sort does). -/
def insertLe {α : Type} (le : α → α → Bool) (x : α) : List α → List α
  | [] => [x]
  | y :: ys => if le y x then y :: insertLe le x ys else x :: y :: ys

/-- Stable insertion sort: embeds Python's stable `sorted(key=...)` /
`list.sort(key=...)`. -/
def stableSort {α : Type} (le : α → α → Bool) (l : List α) : List α :=
  l.foldl (fun acc x => insertLe le x acc) []

/-- Key order for `sorted(syscalls, key=lambda s: s.when)` in
`Process.__init__`. -/
def leWhen (a b : SystemCall) : Bool := a.when ≤ b.when

/-! ## Devices and scheduler -/

/-- One entry of `Device.queue`:
`(enqueue_time, process, op, size, request_id)`. -/
structure DevReq where
  enqueue_time : Nat
  pid : Nat
  op : String
  size : Nat
  request_id : Nat
deriving DecidableEq, Repr

/-- `core/device.py`: class `Device` (`read_speed`/`write_speed` in
bytes/sec; `queue` FIFO list; `in_use` flag).  `Device.__init__` starts with
an empty queue and `in_use = False`. -/
structure Device where
  name : String
  read_speed : Nat
  write_speed : Nat
  queue : List DevReq
  in_use : Bool
deriving DecidableEq, Repr

/-- `Device.__init__`. -/
def mkDevice (name : String) (read_speed write_speed : Nat) : Device :=
  ⟨name, read_speed, write_speed, [], false⟩

/-- `core/scheduler.py`: class `Scheduler` (`ready_queue` deque of pids,
`running` pid). -/
structure Scheduler where
  time_quantum : Nat
  ready_queue : List Nat
  running : Option Nat
  cpu_context_switching : Bool
deriving DecidableEq, Repr

/-! ## System state

All mutable attributes of the `System` object, plus the `Process._pid_counter`
class counter, the process table, and a sticky `error` recording an uncaught
Python exception.  `dispatch_count` and `sum_ran_for` are ghost statistics
used only by theorems: `dispatch_count` counts the dispatches started by
`_attempt_dispatch` (each pops one ready process), and `sum_ran_for`
accumulates the `run_for` of every run slice scheduled by
`_handle_dispatch_complete`. -/
structure State where
  devices : List Device
  commands : List (String × List SystemCall)
  time_quantum : Nat
  current_time : Nat
  event_queue : List Event
  event_counter : Nat
  scheduler : Scheduler
  process_table : List (Nat × Process)
  bus_busy : Bool
  bus_owner : Option Nat
  cpu_busy_time : Nat
  pid_counter : Nat
  dispatch_count : Nat
  sum_ran_for : Nat
  error : Option String
deriving DecidableEq, Repr

/-- Record an uncaught exception; the run loop stops stepping. -/
def fail (s : State) (msg : String) : State := { s with error := some msg }

/-- Python dict lookup `self.process_table[pid]` (keys are unique pids). -/
def lookupProc (s : State) (pid : Nat) : Option Process :=
  (s.process_table.find? (fun e => e.1 = pid)).map (·.2)

/-- Write back a mutated `Process` object (Python mutates the shared
reference; we replace the table entry with the same pid). -/
def setProc (s : State) (p : Process) : State :=
  { s with process_table :=
      s.process_table.map (fun e => if e.1 = p.pid then (e.1, p) else e) }

/-- `self.process_table[p.pid] = p` for a fresh pid (dict append). -/
def addProc (s : State) (p : Process) : State :=
  { s with process_table := s.process_table ++ [(p.pid, p)] }

/-- Python dict lookup `self.commands[name]`; `none` is a `KeyError`. -/
def lookupCmd (s : State) (name : String) : Option (List SystemCall) :=
  (s.commands.find? (fun e => e.1 = name)).map (·.2)

/-- `System.push_event`: bump the sequence counter, build the `Event`, and
`heapq.heappush` it. -/
def push_event (s : State) (time : Nat) (etype : EventType)
    (process : Option Nat) (payload : Option Payload) : State :=
  let c := s.event_counter + 1
  { s with
    event_counter := c,
    event_queue := heappush s.event_queue ⟨time, c, etype, process, payload⟩ }

/-- `System.pop_event`: `None` on an empty queue, else `heapq.heappop`. -/
def pop_event (s : State) : Option (Event × State) :=
  match heappop s.event_queue with
  | none => none
  | some (ev, q) => some (ev, { s with event_queue := q })

/-- `System.create_process(command_name, parent)`: look the command up
(`KeyError` → `none`), build the `Process` (`Process.__init__` sorts the
syscalls by `when`, assigns the next pid), insert it into the table, and
append it to the parent's children. -/
def create_process (s : State) (command_name : String)
    (parentPid : Option Nat) : Option (State × Process) :=
  match lookupCmd s command_name with
  | none => none
  | some scs =>
    let p : Process :=
      { pid := s.pid_counter
        ppid := parentPid
        command_name := command_name
        syscalls := stableSort leWhen scs
        pc := 0
        state := .NEW
        cpu_time_executed := 0
        children := []
        waiting_for_children := false
        blocked_reason := none }
    let s1 := addProc { s with pid_counter := s.pid_counter + 1 } p
    let s2 :=
      match parentPid with
      | none => s1
      | some pp =>
        match lookupProc s1 pp with
        | none => s1
        | some par => setProc s1 { par with children := par.children ++ [p.pid] }
    some (s2, p)

/-! ## Event handlers (`core/system.py`) -/

/-- `System._attempt_dispatch`: return unless the CPU is free and the ready
queue is nonempty; pop the head, mark it `READY` (still, until the dispatch
completes), schedule `DISPATCH_COMPLETE` at `now + CONTEXT_SWITCH_IN`, and
reserve the CPU.  Note: `cpu_busy_time` is not touched here.  The ghost
`dispatch_count` counts each dispatch started. -/
def attempt_dispatch (s : State) : State :=
  if s.scheduler.running ≠ none then s
  else
    match s.scheduler.ready_queue with
    | [] => s
    | pid :: rest =>
      let s1 := { s with scheduler := { s.scheduler with ready_queue := rest } }
      let dispatch_complete_time := s1.current_time + CONTEXT_SWITCH_IN
      let s2 :=
        match lookupProc s1 pid with
        | some p => setProc s1 { p with state := .READY }
        | none => s1
      let s3 := push_event s2 dispatch_complete_time .DISPATCH_COMPLETE (some pid) none
      { s3 with
        scheduler := { s3.scheduler with running := some pid },
        dispatch_count := s3.dispatch_count + 1 }

/-- `System._try_start_bus_transfer` candidate sort key
`lambda d: (-d.read_speed, min(enq for enq, *_ in d.queue))` turned into a
total boolean order (larger `read_speed` first, then smaller minimum
enqueue time first). -/
def minEnq (q : List DevReq) : Nat :=
  match q with
  | [] => 0
  | r :: rs => rs.foldl (fun m x => min m x.enqueue_time) r.enqueue_time

/-- The candidate-device order of `_try_start_bus_transfer`. -/
def devKeyLe (a b : Device) : Bool :=
  decide (b.read_speed < a.read_speed) ||
    (decide (a.read_speed = b.read_speed) && decide (minEnq a.queue ≤ minEnq b.queue))

/-- The per-device queue order `lambda e: e[0]` (by `enqueue_time`). -/
def reqLe (a b : DevReq) : Bool := a.enqueue_time ≤ b.enqueue_time

/-- `System._try_start_bus_transfer`: if the bus is free and some device has
a nonempty queue, stably sort the candidates by `(-read_speed, min enqueue)`,
take the first, sort its queue by `enqueue_time` and pop the head, mark the
device and bus busy, and schedule `IO_COMPLETE` at
`now + BUS_ACQUIRE_DELAY + ceil(size / speed * 1_000_000)`.  The Python float
expression `math.ceil(size / speed * 1_000_000)` is embedded as the exact
ceiling `(size * 1000000 + speed - 1) / speed`; `speed == 0` is Python's
`ZeroDivisionError` (raised after the device and bus flags are set). -/
def try_start_bus_transfer (s : State) : State :=
  if s.bus_busy then s
  else
    let candidates := s.devices.filter (fun d => !d.queue.isEmpty)
    if candidates.isEmpty then s
    else
      match stableSort devKeyLe candidates with
      | [] => s
      | dev :: _ =>
        match stableSort reqLe dev.queue with
        | [] => s
        | req :: restQ =>
          let dev1 := { dev with queue := restQ, in_use := true }
          let s1 :=
            { s with
              devices := s.devices.map (fun d => if d.name = dev.name then dev1 else d),
              bus_busy := true,
              bus_owner := some req.pid }
          let speed := if req.op = "read" then dev.read_speed else dev.write_speed
          if speed = 0 then fail s1 "ZeroDivisionError"
          else
            let transfer_usecs := (req.size * 1000000 + speed - 1) / speed
            let start_time := s1.current_time + BUS_ACQUIRE_DELAY
            let complete_time := start_time + transfer_usecs
            push_event s1 complete_time .IO_COMPLETE (some req.pid)
              (some (.ioInfo dev.name req.request_id))

/-- `System._handle_arrival`: mark `READY`, enqueue on the ready queue
(`Scheduler.enqueue_ready`), and attempt a dispatch if the CPU is idle. -/
def handle_arrival (s : State) (ev : Event) : State :=
  match ev.process.bind (lookupProc s) with
  | none => fail s "AttributeError"
  | some p =>
    let s1 := setProc s { p with state := .READY }
    let s2 :=
      { s1 with scheduler :=
          { s1.scheduler with ready_queue := s1.scheduler.ready_queue ++ [p.pid] } }
    if s2.scheduler.running = none then attempt_dispatch s2 else s2

/-- `System._handle_dispatch_complete`: the process becomes `RUNNING`; the
slice length is `run_for = min(time_quantum, time_until_next_syscall)` (the
full quantum when there is no further syscall); `cpu_busy_time += run_for`
(the ghost `sum_ran_for` mirrors exactly this charge); schedule
`RUN_COMPLETE` at `now + run_for`. -/
def handle_dispatch_complete (s : State) (ev : Event) : State :=
  match ev.process.bind (lookupProc s) with
  | none => fail s "AttributeError"
  | some p =>
    let p1 := { p with state := .RUNNING }
    let s1 := setProc s p1
    let run_for :=
      match p1.time_until_next_syscall with
      | none => s1.time_quantum
      | some t => min s1.time_quantum t
    let run_end_time := s1.current_time + run_for
    let s2 :=
      { s1 with
        cpu_busy_time := s1.cpu_busy_time + run_for,
        sum_ran_for := s1.sum_ran_for + run_for }
    push_event s2 run_end_time .RUN_COMPLETE (some p1.pid) none

/-- `System._handle_run_complete`, transcribed exactly.  Note the source's
conditional expression
`self.time_quantum if (t is None or t > self.time_quantum) else self.time_quantum`
has identical arms, so the quantum branch always adds the full
`time_quantum`; and the branch test uses `time_until_next_syscall` computed
on the not-yet-advanced `cpu_time_executed`. -/
def handle_run_complete (s : State) (ev : Event) : State :=
  match ev.process.bind (lookupProc s) with
  | none => fail s "AttributeError"
  | some p =>
    let t_until := p.time_until_next_syscall
    let s1 :=
      if t_until = none ∨ 0 < t_until.getD 0 then
        let inc :=
          if t_until = none ∨ s.time_quantum < t_until.getD 0 then s.time_quantum
          else s.time_quantum
        let p1 := { p with cpu_time_executed := p.cpu_time_executed + inc, state := .RUNNING }
        let sA := setProc s p1
        push_event sA (sA.current_time + CONTEXT_SWITCH_MOVES) .BLOCKED_TO_READY
          (some p.pid) (some (.reason "quantum"))
      else
        let advance_by := p.time_until_next_syscall.getD 0
        let p1 := { p with cpu_time_executed := p.cpu_time_executed + advance_by }
        let sA := setProc s p1
        push_event sA sA.current_time .SYSCALL_INVOKED (some p.pid) none
    let s2 :=
      if s1.scheduler.running = some p.pid then
        { s1 with scheduler := { s1.scheduler with running := none } }
      else s1
    attempt_dispatch s2

/-- `str.rstrip(chars)`: remove every trailing character contained in
`chars` (Python treats the argument as a character set). -/
def rstripChars (str : String) (chars : List Char) : String :=
  String.mk ((str.toList.reverse.dropWhile (fun c => chars.contains c)).reverse)

/-- Python `int(...)` on the stripped suffix strings; decimal digits only
(`none` embeds `ValueError`), written over the character list so that it
computes by kernel reduction. -/
def parseInt (str : String) : Option Nat :=
  let cs := str.toList
  if cs.isEmpty then none
  else if cs.all (fun c => c.isDigit) then
    some (cs.foldl (fun acc c => acc * 10 + (c.toNat - 48)) 0)
  else none

/-- `System._handle_syscall_invoked`: dispatch on the syscall name.
`spawn` creates the child and enqueues its arrival at `now` (nothing is
scheduled for the parent); `read`/`write` enqueue on the device, schedule
`BLOCKED_TO_READY('io_block')` at `now + MOVES`, and try to start a bus
transfer; `sleep` schedules `SLEEP_COMPLETE` at `now + MOVES + duration`;
`wait` with no children only advances `pc`; `exit` schedules `PROCESS_EXIT`
at `now`; anything else raises `ValueError`. -/
def handle_syscall_invoked (s : State) (ev : Event) : State :=
  match ev.process.bind (lookupProc s) with
  | none => fail s "AttributeError"
  | some p =>
    match p.current_syscall with
    | none => s
    | some sc =>
      let args := sc.args
      if sc.name = "spawn" then
        match args[0]? with
        | none => fail s "IndexError"
        | some cmd =>
          match create_process s cmd (some p.pid) with
          | none => fail s ("KeyError: " ++ cmd)
          | some (s1, child) =>
            let s2 := push_event s1 s1.current_time .PROCESS_ARRIVAL (some child.pid) none
            match lookupProc s2 p.pid with
            | none => fail s2 "AttributeError"
            | some p2 => setProc s2 { p2 with pc := p2.pc + 1 }
      else if sc.name = "read" ∨ sc.name = "write" then
        match args[0]?, args[1]? with
        | some devname, some sizeStr =>
          match parseInt (rstripChars sizeStr ['B']) with
          | none => fail s "ValueError"
          | some size =>
            if (s.devices.find? (fun d => d.name = devname)).isNone then
              fail s ("KeyError: " ++ devname)
            else
              let request_id := (p.pid <<< 16) ||| p.pc
              let req : DevReq := ⟨s.current_time, p.pid, sc.name, size, request_id⟩
              let s1 :=
                { s with devices := s.devices.map (fun d =>
                    if d.name = devname then { d with queue := d.queue ++ [req] } else d) }
              let p1 :=
                { p with
                  blocked_reason := some (.io devname sc.name size request_id),
                  pc := p.pc + 1 }
              let s2 := setProc s1 p1
              let s3 := push_event s2 (s2.current_time + CONTEXT_SWITCH_MOVES)
                .BLOCKED_TO_READY (some p.pid) (some (.reason "io_block"))
              try_start_bus_transfer s3
        | _, _ => fail s "IndexError"
      else if sc.name = "sleep" then
        match args[0]? with
        | none => fail s "IndexError"
        | some dstr =>
          match parseInt (rstripChars dstr ['u', 's', 'e', 'c']) with
          | none => fail s "ValueError"
          | some duration =>
            let p1 := { p with blocked_reason := some (.sleepFor duration), pc := p.pc + 1 }
            let s1 := setProc s p1
            let to_block_time := s1.current_time + CONTEXT_SWITCH_MOVES
            push_event s1 (to_block_time + duration) .SLEEP_COMPLETE (some p.pid) none
      else if sc.name = "wait" then
        if p.children.isEmpty then
          setProc s { p with pc := p.pc + 1 }
        else
          let p1 :=
            { p with
              waiting_for_children := true,
              blocked_reason := some .waitChildren,
              pc := p.pc + 1 }
          let s1 := setProc s p1
          push_event s1 (s1.current_time + CONTEXT_SWITCH_MOVES) .BLOCKED_TO_READY
            (some p.pid) (some (.reason "wait_block"))
      else if sc.name = "exit" then
        let s1 := setProc s { p with pc := p.pc + 1 }
        push_event s1 s1.current_time .PROCESS_EXIT (some p.pid) none
      else fail s ("ValueError: Unknown syscall " ++ sc.name)

/-- `System._handle_blocked_to_ready`: dispatch on `payload.get('reason')`
(`'quantum'` → enqueue ready; `'io_block'`/`'wait_block'` → enter `BLOCKED`
and free the CPU; anything else, including `{'from': ...}` payloads, is the
generic unblock: `READY`, clear `blocked_reason` and `waiting_for_children`,
enqueue ready).  Always attempt a dispatch afterwards. -/
def handle_blocked_to_ready (s : State) (ev : Event) : State :=
  match ev.process.bind (lookupProc s) with
  | none => fail s "AttributeError"
  | some p =>
    let reason : Option String :=
      match ev.payload with
      | some (.reason r) => some r
      | _ => none
    let s1 :=
      if reason = some "quantum" then
        let sA := setProc s { p with state := .READY }
        { sA with scheduler :=
            { sA.scheduler with ready_queue := sA.scheduler.ready_queue ++ [p.pid] } }
      else if reason = some "io_block" then
        let sA := setProc s { p with state := .BLOCKED }
        if sA.scheduler.running = some p.pid then
          { sA with scheduler := { sA.scheduler with running := none } }
        else sA
      else if reason = some "wait_block" then
        let sA := setProc s { p with state := .BLOCKED }
        if sA.scheduler.running = some p.pid then
          { sA with scheduler := { sA.scheduler with running := none } }
        else sA
      else
        let sA := setProc s
          { p with state := .READY, blocked_reason := none, waiting_for_children := false }
        { sA with scheduler :=
            { sA.scheduler with ready_queue := sA.scheduler.ready_queue ++ [p.pid] } }
    attempt_dispatch s1

/-- `System._handle_io_complete`: free the payload's device, free the bus,
schedule the generic `BLOCKED_TO_READY` at `now + CONTEXT_SWITCH_MOVES` with
payload `{'from': 'io'}`, then try to start the next bus transfer.  A payload
without `'device'`/`'request_id'` keys is a `KeyError`. -/
def handle_io_complete (s : State) (ev : Event) : State :=
  match ev.payload with
  | some (.ioInfo device_name _) =>
    if (s.devices.find? (fun d => d.name = device_name)).isNone then
      fail s ("KeyError: " ++ device_name)
    else
      let s1 :=
        { s with
          devices := s.devices.map (fun d =>
            if d.name = device_name then { d with in_use := false } else d),
          bus_busy := false,
          bus_owner := none }
      let s2 := push_event s1 (s1.current_time + CONTEXT_SWITCH_MOVES)
        .BLOCKED_TO_READY ev.process (some (.fromTag "io"))
      try_start_bus_transfer s2
  | _ => fail s "KeyError"

/-- `System._handle_sleep_complete`: schedule the generic `BLOCKED_TO_READY`
at `now + CONTEXT_SWITCH_MOVES` with payload `{'from': 'sleep'}`. -/
def handle_sleep_complete (s : State) (ev : Event) : State :=
  push_event s (s.current_time + CONTEXT_SWITCH_MOVES) .BLOCKED_TO_READY
    ev.process (some (.fromTag "sleep"))

/-- `System._handle_wait_complete`: schedule the generic `BLOCKED_TO_READY`
at `now + CONTEXT_SWITCH_MOVES` with payload `{'from': 'wait'}`. -/
def handle_wait_complete (s : State) (ev : Event) : State :=
  push_event s (s.current_time + CONTEXT_SWITCH_MOVES) .BLOCKED_TO_READY
    ev.process (some (.fromTag "wait"))

/-- `System._handle_process_exit`: mark `EXIT`; if the parent exists, is
waiting, and all its children are `EXIT`, schedule `WAIT_COMPLETE(parent)` at
`now`; clear the CPU if this process held it.  Processes stay in the table. -/
def handle_process_exit (s : State) (ev : Event) : State :=
  match ev.process.bind (lookupProc s) with
  | none => fail s "AttributeError"
  | some p =>
    let p1 := { p with state := .EXIT }
    let s1 := setProc s p1
    let s2 :=
      match p1.ppid with
      | none => s1
      | some ppid =>
        match lookupProc s1 ppid with
        | none => s1
        | some parent =>
          if parent.waiting_for_children &&
              parent.children.all (fun cpid =>
                match lookupProc s1 cpid with
                | some c => c.state = .EXIT
                | none => false) then
            push_event s1 s1.current_time .WAIT_COMPLETE (some ppid) none
          else s1
    if s2.scheduler.running = some p.pid then
      { s2 with scheduler := { s2.scheduler with running := none } }
    else s2

/-- The handler dictionary of `System.run`.  `SPAWN` maps to
`_handle_spawn` (a `pass`); `CPU_AVAILABLE` has no handler (the loop prints
a message and continues). -/
def handleEvent (s : State) (ev : Event) : State :=
  match ev.type with
  | .PROCESS_ARRIVAL => handle_arrival s ev
  | .DISPATCH_COMPLETE => handle_dispatch_complete s ev
  | .RUN_COMPLETE => handle_run_complete s ev
  | .SYSCALL_INVOKED => handle_syscall_invoked s ev
  | .IO_COMPLETE => handle_io_complete s ev
  | .SLEEP_COMPLETE => handle_sleep_complete s ev
  | .BLOCKED_TO_READY => handle_blocked_to_ready s ev
  | .PROCESS_EXIT => handle_process_exit s ev
  | .SPAWN => s
  | .WAIT_COMPLETE => handle_wait_complete s ev
  | .CPU_AVAILABLE => s

/-- One iteration of the `System.run` while-loop: pop the earliest event,
advance `current_time` to its timestamp, handle it.  Identity on an empty
queue or after an uncaught exception. -/
def stepOnce (s : State) : State :=
  if s.error.isSome then s
  else
    match pop_event s with
    | none => s
    | some (ev, s1) => handleEvent { s1 with current_time := ev.time } ev

/-- `System.run` driven by explicit fuel (the loop runs until the queue
drains; extra fuel is a no-op once it has). -/
def runFor : Nat → State → State
  | 0, s => s
  | n + 1, s => runFor n (stepOnce s)

/-- The `{d.name: d for d in devices}` dict build of `System.__init__`:
a later duplicate name overwrites in place. -/
def dictInsertDevice (l : List Device) (d : Device) : List Device :=
  if l.any (fun e => e.name = d.name) then
    l.map (fun e => if e.name = d.name then d else e)
  else l ++ [d]

/-- `System.__init__` device dict. -/
def buildDevices (ds : List Device) : List Device :=
  ds.foldl dictInsertDevice []

/-- The commands dict produced by `simio/parser.py` (`commands[name] = [...]`
in file order; a duplicate header overwrites in place). -/
def dictInsertCmd (l : List (String × List SystemCall))
    (kv : String × List SystemCall) : List (String × List SystemCall) :=
  if l.any (fun e => e.1 = kv.1) then
    l.map (fun e => if e.1 = kv.1 then kv else e)
  else l ++ [kv]

/-- Build the commands dict from the parsed (name, syscalls) pairs in file
order. -/
def buildCommands (cs : List (String × List SystemCall)) :
    List (String × List SystemCall) :=
  cs.foldl dictInsertCmd []

/-- `System.__init__(devices, commands, time_quantum)` plus the fresh
`Process._pid_counter = 1`. -/
def initState (devices : List Device) (commands : List (String × List SystemCall))
    (time_quantum : Nat) : State :=
  { devices := buildDevices devices
    commands := buildCommands commands
    time_quantum := time_quantum
    current_time := 0
    event_queue := []
    event_counter := 0
    scheduler := ⟨time_quantum, [], none, false⟩
    process_table := []
    bus_busy := false
    bus_owner := none
    cpu_busy_time := 0
    pid_counter := 1
    dispatch_count := 0
    sum_ran_for := 0
    error := none }

/-- `System.start` (minus the call to `run`, which `runFor` performs):
on an empty command table print and return; otherwise create the entry
process from `next(iter(self.commands.keys()))` — the first command in the
file's textual order — and enqueue its `PROCESS_ARRIVAL` at time 0. -/
def start (s : State) : State :=
  match s.commands with
  | [] => s
  | (first_cmd, _) :: _ =>
    match create_process s first_cmd none with
    | none => fail s ("KeyError: " ++ first_cmd)
    | some (s1, proc) => push_event s1 0 .PROCESS_ARRIVAL (some proc.pid) none

/-- A whole run: `System.__init__`, `start`, and `fuel` iterations of the
event loop. -/
def simulate (devices : List Device) (commands : List (String × List SystemCall))
    (time_quantum fuel : Nat) : State :=
  runFor fuel (start (initState devices commands time_quantum))

/-! ## Observers used by the theorems -/

/-- The `IO_COMPLETE` events pending in an event queue. -/
def ioFilter (q : List Event) : List Event :=
  q.filter (fun e => e.type = EventType.IO_COMPLETE)

/-- The devices currently marked `in_use`. -/
def inUse (s : State) : List Device :=
  s.devices.filter (fun d => d.in_use)

/-- Repeatedly `System.push_event` a list of timestamps (payload-free
`CPU_AVAILABLE` events). -/
def pushTimes (s : State) (ts : List Nat) : State :=
  ts.foldl (fun s2 t => push_event s2 t EventType.CPU_AVAILABLE none none) s

/-- Drain a heap with `heappop`, recording each popped `(time, order)` pair. -/
def popPairs : Nat → List Event → List (Nat × Nat)
  | 0, _ => []
  | n + 1, h =>
    match heappop h with
    | none => []
    | some (e, h2) => (e.time, e.order) :: popPairs n h2

def BusFrame (s s' : State) : Prop :=
  s'.devices = s.devices ∧ s'.bus_busy = s.bus_busy ∧
    ioFilter s'.event_queue ~ ioFilter s.event_queue

def EasyFrame (s s' : State) : Prop :=
  BusFrame s s' ∧ s'.cpu_busy_time = s.cpu_busy_time ∧ s'.sum_ran_for = s.sum_ran_for


def BusInv (s : State) : Prop :=
  (s.devices.map (fun d => d.name)).Nodup ∧
  ((s.bus_busy = false ∧ s.devices.filter (fun d => d.in_use) = [] ∧
      (s.error = none → ioFilter s.event_queue = [])) ∨
   (s.bus_busy = true ∧ ∃ d, s.devices.filter (fun d2 => d2.in_use) = [d] ∧
      (s.error = none → ∃ rid, (ioFilter s.event_queue).map (fun e => e.payload) =
        [some (Payload.ioInfo d.name rid)])))


/-- The only charge to `cpu_busy_time` anywhere in the engine is the
`run_for` charge of `_handle_dispatch_complete`, mirrored by the ghost
`sum_ran_for`. -/
def chargeOk (s : State) : Prop := s.cpu_busy_time = s.sum_ran_for


/-! ## Concrete scenarios used by the claim theorems -/

/-- One command whose single syscall (`exit`) is due at CPU-time offset 30. -/
def cmdsA30 : List (String × List SystemCall) := [("a", [⟨30, "exit", []⟩])]

/-- One command that exits immediately. -/
def cmdsA0 : List (String × List SystemCall) := [("a", [⟨0, "exit", []⟩])]

/-- A parent that spawns a child and then would exit at offset 10. -/
def cmdsSpawnTree : List (String × List SystemCall) :=
  [("par", [⟨0, "spawn", ["kid"]⟩, ⟨10, "exit", []⟩]), ("kid", [⟨0, "exit", []⟩])]

/-- A command that spawns a name absent from the command table. -/
def cmdsSpawnUnknown : List (String × List SystemCall) :=
  [("par", [⟨0, "spawn", ["nosuch"]⟩])]

/-- A command that calls `wait` with no children, then would exit at 20. -/
def cmdsWaitNoChildren : List (String × List SystemCall) :=
  [("w", [⟨0, "wait", []⟩, ⟨20, "exit", []⟩])]

/-- A command table where `shell` exists but is not the first command. -/
def cmdsShellSecond : List (String × List SystemCall) :=
  [("boot", [⟨0, "exit", []⟩]), ("shell", [⟨0, "exit", []⟩])]

/-- A command issuing one 100-byte read against device `disk` and exiting. -/
def cmdsRead : List (String × List SystemCall) :=
  [("r", [⟨0, "read", ["disk", "100B"]⟩, ⟨5, "exit", []⟩])]

/-- A 1000 B/s-read, 500 B/s-write device, as built by `parse_sysconfig`. -/
def devDisk : Device := mkDevice "disk" 1000 500

/-- A slow-read device with one pending write (enqueued at 4). -/
def c7slow : Device :=
  { name := "slow", read_speed := 5, write_speed := 9,
    queue := [⟨4, 2, "write", 20, 8⟩], in_use := false }

/-- A fast-read device whose only pending request is a write (enqueued at 6). -/
def c7fast : Device :=
  { name := "fast", read_speed := 7, write_speed := 3,
    queue := [⟨6, 1, "write", 10, 9⟩], in_use := false }

/-- Bus-idle state with both devices holding pending requests. -/
def c7State : State :=
  { devices := [c7slow, c7fast], commands := [], time_quantum := 100, current_time := 50,
    event_queue := [], event_counter := 0, scheduler := ⟨100, [], none, false⟩,
    process_table := [], bus_busy := false, bus_owner := none, cpu_busy_time := 0,
    pid_counter := 1, dispatch_count := 0, sum_ran_for := 0, error := none }

/-- State in the middle of a transfer on `disk`, about to handle `IO_COMPLETE`. -/
def c6State : State :=
  { devices := [⟨"disk", 1000, 500, [], true⟩],
    commands := [], time_quantum := 100, current_time := 100,
    event_queue := [], event_counter := 3, scheduler := ⟨100, [], none, false⟩,
    process_table := [], bus_busy := true, bus_owner := some 1, cpu_busy_time := 0,
    pid_counter := 2, dispatch_count := 1, sum_ran_for := 0, error := none }

/-- The `IO_COMPLETE` event for `c6State`. -/
def c6Event : Event := ⟨100, 3, EventType.IO_COMPLETE, some 1, some (Payload.ioInfo "disk" 65536)⟩

/-- A running process whose current syscall spawns the unknown command. -/
def c10Proc : Process :=
  { pid := 1, ppid := none, command_name := "par",
    syscalls := [⟨0, "spawn", ["nosuch"]⟩], pc := 0, state := PState.RUNNING,
    cpu_time_executed := 0, children := [], waiting_for_children := false,
    blocked_reason := none }

/-- State about to handle the `SYSCALL_INVOKED` of `c10Proc`. -/
def c10State : State :=
  { devices := [], commands := [("par", [⟨0, "spawn", ["nosuch"]⟩])], time_quantum := 100,
    current_time := 5, event_queue := [], event_counter := 4,
    scheduler := ⟨100, [], none, false⟩, process_table := [(1, c10Proc)],
    bus_busy := false, bus_owner := none, cpu_busy_time := 0, pid_counter := 2,
    dispatch_count := 1, sum_ran_for := 0, error := none }

/-- The `SYSCALL_INVOKED` event for `c10State`. -/
def c10Event : Event := ⟨5, 4, EventType.SYSCALL_INVOKED, some 1, none⟩

/-! ## Multiset correctness of the embedded `heapq`

`heappush h x` is a permutation of `x :: h`, and `heappop` returns an
element together with a permutation of the rest.  These are needed to track
the set of pending `IO_COMPLETE` events across queue operations. -/


theorem set_getD_self (l : List Event) (i : Nat) (h : i < l.length) :
    l.set i (l.getD i default) = l := by
  induction l generalizing i with
  | nil => simp at h
  | cons a t ih =>
    cases i with
    | zero => simp [List.set, List.getD]
    | succ k =>
      simp only [List.length_cons, Nat.succ_lt_succ_iff] at h
      have hk := ih k h
      simp only [List.set_cons_succ, List.getD_cons_succ]
      rw [hk]

theorem permB (t : List Event) (k : Nat) (x : Event) (hk : k < t.length) :
    t.getD k default :: t.set k x ~ x :: t := by
  induction t generalizing k with
  | nil => simp at hk
  | cons b s ih =>
    cases k with
    | zero => simpa [List.getD] using List.Perm.swap x b s
    | succ m =>
      simp only [List.length_cons, Nat.succ_lt_succ_iff] at hk
      calc (b :: s).getD (m + 1) default :: (b :: s).set (m + 1) x
          = s.getD m default :: b :: s.set m x := by simp [List.getD]
        _ ~ b :: (s.getD m default :: s.set m x) := List.Perm.swap _ _ _
        _ ~ b :: (x :: s) := List.Perm.cons b (ih m hk)
        _ ~ x :: b :: s := List.Perm.swap _ _ _

theorem permC (t : List Event) (m : Nat) (a x : Event) (hm : m < t.length) :
    x :: t.set m a ~ a :: t.set m x := by
  induction t generalizing m with
  | nil => simp at hm
  | cons b s ih =>
    cases m with
    | zero => simpa using List.Perm.swap a x s
    | succ k =>
      simp only [List.length_cons, Nat.succ_lt_succ_iff] at hm
      calc x :: (b :: s).set (k + 1) a
          = x :: b :: s.set k a := by simp
        _ ~ b :: x :: s.set k a := List.Perm.swap _ _ _
        _ ~ b :: (a :: s.set k x) := List.Perm.cons b (ih k hm)
        _ ~ a :: b :: s.set k x := List.Perm.swap _ _ _

theorem perm_set_set (l : List Event) (i j : Nat) (x : Event)
    (hi : i < l.length) (hj : j < l.length) (hne : i ≠ j) :
    (l.set i (l.getD j default)).set j x ~ l.set i x := by
  induction l generalizing i j with
  | nil => simp at hi
  | cons a t ih =>
    cases i with
    | zero =>
      cases j with
      | zero => exact absurd rfl hne
      | succ m =>
        simp only [List.length_cons, Nat.succ_lt_succ_iff] at hj
        calc ((a :: t).set 0 ((a :: t).getD (m + 1) default)).set (m + 1) x
            = t.getD m default :: t.set m x := by simp [List.getD]
          _ ~ x :: t := permB t m x hj
          _ = (a :: t).set 0 x := by simp
    | succ n =>
      cases j with
      | zero =>
        simp only [List.length_cons, Nat.succ_lt_succ_iff] at hi
        calc ((a :: t).set (n + 1) ((a :: t).getD 0 default)).set 0 x
            = x :: t.set n a := by simp [List.getD]
          _ ~ a :: t.set n x := permC t n a x hi
          _ = (a :: t).set (n + 1) x := by simp
      | succ m =>
        simp only [List.length_cons, Nat.succ_lt_succ_iff] at hi hj
        have hne2 : n ≠ m := fun h => hne (by simp [h])
        calc ((a :: t).set (n + 1) ((a :: t).getD (m + 1) default)).set (m + 1) x
            = a :: ((t.set n (t.getD m default)).set m x) := by simp [List.getD]
          _ ~ a :: t.set n x := List.Perm.cons a (ih n m hi hj hne2)
          _ = (a :: t).set (n + 1) x := by simp

theorem siftdownAux_perm (fuel : Nat) (heap : List Event) (startpos pos : Nat)
    (newitem : Event) (h : pos < heap.length) :
    siftdownAux fuel heap startpos pos newitem ~ heap.set pos newitem := by
  induction fuel generalizing heap pos with
  | zero => exact List.Perm.refl _
  | succ k ih =>
    simp only [siftdownAux]
    split
    next hsp =>
      split
      next hlt =>
        calc siftdownAux k (heap.set pos (heap.getD ((pos - 1) / 2) default)) startpos
              ((pos - 1) / 2) newitem
            ~ (heap.set pos (heap.getD ((pos - 1) / 2) default)).set ((pos - 1) / 2) newitem :=
              ih _ _ (by simp only [List.length_set]; omega)
          _ ~ heap.set pos newitem :=
              perm_set_set heap pos ((pos - 1) / 2) newitem h (by omega) (by omega)
      next => exact List.Perm.refl _
    next => exact List.Perm.refl _

theorem siftdown_perm (heap : List Event) (startpos pos : Nat)
    (h : pos < heap.length) : siftdown heap startpos pos ~ heap := by
  unfold siftdown
  calc siftdownAux pos heap startpos pos (heap.getD pos default)
      ~ heap.set pos (heap.getD pos default) := siftdownAux_perm pos heap startpos pos _ h
    _ = heap := set_getD_self heap pos h

theorem siftupAux_perm (fuel : Nat) (heap : List Event) (endpos startpos pos : Nat)
    (newitem : Event) (hpe : pos < heap.length) (hel : endpos ≤ heap.length) :
    siftupAux fuel heap endpos startpos pos newitem ~ heap.set pos newitem := by
  induction fuel generalizing heap pos with
  | zero =>
    exact siftdown_perm _ _ _ (by simp only [List.length_set]; exact hpe)
  | succ k ih =>
    simp only [siftupAux]
    split
    next h1 =>
      have h1l : 2 * pos + 1 < heap.length := Nat.lt_of_lt_of_le h1 hel
      split
      next h2 =>
        have h2l : 2 * pos + 2 < heap.length := Nat.lt_of_lt_of_le h2 hel
        split
        next h3 =>
          calc siftupAux k (heap.set pos (heap.getD (2 * pos + 1) default)) endpos startpos
                (2 * pos + 1) newitem
              ~ (heap.set pos (heap.getD (2 * pos + 1) default)).set (2 * pos + 1) newitem :=
                ih _ _ (by simp only [List.length_set]; exact h1l)
                  (by simp only [List.length_set]; exact hel)
            _ ~ heap.set pos newitem :=
                perm_set_set heap pos (2 * pos + 1) newitem hpe h1l (by omega)
        next h3 =>
          calc siftupAux k (heap.set pos (heap.getD (2 * pos + 2) default)) endpos startpos
                (2 * pos + 2) newitem
              ~ (heap.set pos (heap.getD (2 * pos + 2) default)).set (2 * pos + 2) newitem :=
                ih _ _ (by simp only [List.length_set]; exact h2l)
                  (by simp only [List.length_set]; exact hel)
            _ ~ heap.set pos newitem :=
                perm_set_set heap pos (2 * pos + 2) newitem hpe h2l (by omega)
      next h2 =>
        calc siftupAux k (heap.set pos (heap.getD (2 * pos + 1) default)) endpos startpos
              (2 * pos + 1) newitem
            ~ (heap.set pos (heap.getD (2 * pos + 1) default)).set (2 * pos + 1) newitem :=
              ih _ _ (by simp only [List.length_set]; exact h1l)
                (by simp only [List.length_set]; exact hel)
          _ ~ heap.set pos newitem :=
              perm_set_set heap pos (2 * pos + 1) newitem hpe h1l (by omega)
    next h1 =>
      exact siftdown_perm _ _ _ (by simp only [List.length_set]; exact hpe)

theorem siftup_perm (heap : List Event) (pos : Nat) (h : pos < heap.length) :
    siftup heap pos ~ heap := by
  unfold siftup
  calc siftupAux heap.length heap heap.length pos pos (heap.getD pos default)
      ~ heap.set pos (heap.getD pos default) :=
        siftupAux_perm heap.length heap heap.length pos pos _ h (Nat.le_refl _)
    _ = heap := set_getD_self heap pos h

theorem heappush_perm (heap : List Event) (item : Event) :
    heappush heap item ~ item :: heap := by
  unfold heappush
  calc siftdown (heap ++ [item]) 0 heap.length
      ~ heap ++ [item] := siftdown_perm _ 0 _ (by simp)
    _ ~ item :: heap := by exact List.perm_append_singleton item heap

theorem heappop_perm (heap rest : List Event) (ev : Event)
    (h : heappop heap = some (ev, rest)) : ev :: rest ~ heap := by
  unfold heappop at h
  cases hl : heap.getLast? with
  | none => rw [hl] at h; exact absurd h (by simp)
  | some lastelt =>
    rw [hl] at h
    have hne : heap ≠ [] := by
      intro hnil; rw [hnil] at hl; simp at hl
    have hlast : heap.getLast hne = lastelt := by
      have := List.getLast?_eq_getLast heap hne
      rw [hl] at this
      exact (Option.some_inj.mp this).symm
    have hsplit : heap.dropLast ++ [lastelt] = heap := by
      rw [← hlast]
      exact List.dropLast_append_getLast hne
    by_cases hr : heap.dropLast = []
    · simp only [hr, if_true, Option.some_inj] at h
      have h1 : ev = lastelt := (congrArg Prod.fst h).symm
      have h2 : rest = ([] : List Event) := (congrArg Prod.snd h).symm
      rw [h1, h2, ← hsplit, hr]
      simp
    · simp only [hr, if_false, Option.some_inj] at h
      have h1 : ev = heap.dropLast.getD 0 default := (congrArg Prod.fst h).symm
      have h2 : rest = siftup (heap.dropLast.set 0 lastelt) 0 := (congrArg Prod.snd h).symm
      have hlen : 0 < heap.dropLast.length := List.length_pos.mpr hr
      calc ev :: rest
          = heap.dropLast.getD 0 default :: siftup (heap.dropLast.set 0 lastelt) 0 := by
            rw [h1, h2]
        _ ~ heap.dropLast.getD 0 default :: heap.dropLast.set 0 lastelt := by
            refine List.Perm.cons _ (siftup_perm _ 0 ?_)
            simp only [List.length_set]; exact hlen
        _ ~ lastelt :: heap.dropLast := permB heap.dropLast 0 lastelt hlen
        _ ~ heap.dropLast ++ [lastelt] := (List.perm_append_singleton lastelt heap.dropLast).symm
        _ = heap := hsplit

/-! ## Properties of the stable sort -/

theorem insertLe_perm {α : Type} (le : α → α → Bool) (x : α) (l : List α) :
    insertLe le x l ~ x :: l := by
  induction l with
  | nil => exact List.Perm.refl _
  | cons y ys ih =>
    unfold insertLe
    by_cases h : le y x = true
    · rw [if_pos h]
      calc y :: insertLe le x ys
          ~ y :: x :: ys := List.Perm.cons y ih
        _ ~ x :: y :: ys := List.Perm.swap _ _ _
    · rw [if_neg h]

theorem stableSort_perm_aux {α : Type} (le : α → α → Bool) (l acc : List α) :
    l.foldl (fun a x => insertLe le x a) acc ~ acc ++ l := by
  induction l generalizing acc with
  | nil => simp
  | cons x xs ih =>
    calc (x :: xs).foldl (fun a y => insertLe le y a) acc
        = xs.foldl (fun a y => insertLe le y a) (insertLe le x acc) := by rfl
      _ ~ insertLe le x acc ++ xs := ih _
      _ ~ (x :: acc) ++ xs := (insertLe_perm le x acc).append_right xs
      _ = x :: (acc ++ xs) := rfl
      _ ~ acc ++ x :: xs := List.perm_middle.symm

theorem stableSort_perm {α : Type} (le : α → α → Bool) (l : List α) :
    stableSort le l ~ l := by
  simpa using stableSort_perm_aux le l []

theorem insertLe_pairwise {α : Type} (le : α → α → Bool)
    (htrans : ∀ a b c, le a b = true → le b c = true → le a c = true)
    (htot : ∀ a b, le a b = true ∨ le b a = true) (x : α) (l : List α)
    (hl : l.Pairwise (fun a b => le a b = true)) :
    (insertLe le x l).Pairwise (fun a b => le a b = true) := by
  induction l with
  | nil => simp [insertLe]
  | cons y ys ih =>
    rw [List.pairwise_cons] at hl
    obtain ⟨hy, hys⟩ := hl
    unfold insertLe
    by_cases h : le y x = true
    · rw [if_pos h]
      rw [List.pairwise_cons]
      constructor
      · intro z hz
        have hz2 : z ∈ x :: ys := (insertLe_perm le x ys).mem_iff.mp hz
        rcases List.mem_cons.mp hz2 with rfl | hz3
        · exact h
        · exact hy z hz3
      · exact ih hys
    · rw [if_neg h]
      have hxy : le x y = true := (htot x y).resolve_right (fun h2 => h h2)
      rw [List.pairwise_cons]
      constructor
      · intro z hz
        rcases List.mem_cons.mp hz with rfl | hz2
        · exact hxy
        · exact htrans x y z hxy (hy z hz2)
      · rw [List.pairwise_cons]
        exact ⟨hy, hys⟩

theorem stableSort_pairwise {α : Type} (le : α → α → Bool)
    (htrans : ∀ a b c, le a b = true → le b c = true → le a c = true)
    (htot : ∀ a b, le a b = true ∨ le b a = true) (l : List α) :
    (stableSort le l).Pairwise (fun a b => le a b = true) := by
  suffices h : ∀ acc : List α, acc.Pairwise (fun a b => le a b = true) →
      (l.foldl (fun a x => insertLe le x a) acc).Pairwise (fun a b => le a b = true) by
    exact h [] (by simp)
  induction l with
  | nil => intro acc hacc; exact hacc
  | cons x xs ih =>
    intro acc hacc
    exact ih (insertLe le x acc) (insertLe_pairwise le htrans htot x acc hacc)

theorem stableSort_head_le {α : Type} (le : α → α → Bool)
    (htrans : ∀ a b c, le a b = true → le b c = true → le a c = true)
    (htot : ∀ a b, le a b = true ∨ le b a = true) (l : List α) (x : α)
    (t : List α) (hs : stableSort le l = x :: t) :
    ∀ y ∈ l, le x y = true := by
  intro y hy
  have hy2 : y ∈ x :: t := by
    rw [← hs]
    exact (stableSort_perm le l).symm.mem_iff.mp hy
  rcases List.mem_cons.mp hy2 with rfl | hy3
  · exact (htot y y).elim id id
  · have hp := stableSort_pairwise le htrans htot l
    rw [hs, List.pairwise_cons] at hp
    exact hp.1 y hy3

/-- `devKeyLe` is total. -/
theorem devKeyLe_total : ∀ a b : Device, devKeyLe a b = true ∨ devKeyLe b a = true := by
  intro a b
  unfold devKeyLe
  by_cases h1 : a.read_speed = b.read_speed
  · by_cases h2 : minEnq a.queue ≤ minEnq b.queue
    · left; simp [h1, h2]
    · right; simp [h1.symm]; omega
  · rcases Nat.lt_or_ge a.read_speed b.read_speed with h2 | h2
    · right; simp [h2]
    · left; simp [Nat.lt_of_le_of_ne h2 (fun h3 => h1 h3.symm)]

/-- `devKeyLe` is transitive. -/
theorem devKeyLe_trans : ∀ a b c : Device,
    devKeyLe a b = true → devKeyLe b c = true → devKeyLe a c = true := by
  intro a b c hab hbc
  unfold devKeyLe at *
  simp only [Bool.or_eq_true, Bool.and_eq_true, decide_eq_true_eq] at *
  omega

/-- `reqLe` is total. -/
theorem reqLe_total : ∀ a b : DevReq, reqLe a b = true ∨ reqLe b a = true := by
  intro a b
  unfold reqLe
  simp only [decide_eq_true_eq]
  omega

/-- `reqLe` is transitive. -/
theorem reqLe_trans : ∀ a b c : DevReq,
    reqLe a b = true → reqLe b c = true → reqLe a c = true := by
  intro a b c hab hbc
  unfold reqLe at *
  simp only [decide_eq_true_eq] at *
  omega

/-! ## Small transfer helpers -/

theorem perm_eq_nil {l l' : List Event} (hp : l ~ l') (h : l' = []) : l = [] := by
  subst h
  exact hp.eq_nil

theorem perm_map_eq_singleton {l l' : List Event} {f : Event → Option Payload}
    {v : Option Payload} (hp : l ~ l') (h : l'.map f = [v]) : l.map f = [v] := by
  have := (hp.map f)
  rw [h] at this
  exact List.perm_singleton.mp this

/-! ## Frame lemmas

`BusFrame s s'` records that a state transformation touched neither the
devices, nor the bus flag, nor (up to permutation) the pending `IO_COMPLETE`
events.  `EasyFrame` additionally fixes the two CPU-accounting counters. -/

theorem busFrame_refl (s : State) : BusFrame s s := ⟨rfl, rfl, List.Perm.refl _⟩

theorem busFrame_trans {s1 s2 s3 : State} (h1 : BusFrame s1 s2) (h2 : BusFrame s2 s3) :
    BusFrame s1 s3 :=
  ⟨h2.1.trans h1.1, h2.2.1.trans h1.2.1, h2.2.2.trans h1.2.2⟩

theorem easyFrame_refl (s : State) : EasyFrame s s :=
  ⟨busFrame_refl s, rfl, rfl⟩

theorem easyFrame_trans {s1 s2 s3 : State} (h1 : EasyFrame s1 s2) (h2 : EasyFrame s2 s3) :
    EasyFrame s1 s3 :=
  ⟨busFrame_trans h1.1 h2.1, h2.2.1.trans h1.2.1, h2.2.2.trans h1.2.2⟩

theorem ioFilter_push (s : State) (t : Nat) (ty : EventType) (pr : Option Nat)
    (pl : Option Payload) :
    ioFilter (push_event s t ty pr pl).event_queue ~
      ioFilter (Event.mk t (s.event_counter + 1) ty pr pl :: s.event_queue) := by
  unfold push_event ioFilter
  exact (heappush_perm s.event_queue _).filter _

theorem ioFilter_push_not (s : State) (t : Nat) (ty : EventType) (pr : Option Nat)
    (pl : Option Payload) (hty : ty ≠ EventType.IO_COMPLETE) :
    ioFilter (push_event s t ty pr pl).event_queue ~ ioFilter s.event_queue := by
  have h := ioFilter_push s t ty pr pl
  unfold ioFilter at *
  rwa [List.filter_cons_of_neg (by simp [hty])] at h

theorem ioFilter_push_io (s : State) (t : Nat) (pr : Option Nat) (pl : Option Payload) :
    ioFilter (push_event s t EventType.IO_COMPLETE pr pl).event_queue ~
      Event.mk t (s.event_counter + 1) EventType.IO_COMPLETE pr pl :: ioFilter s.event_queue := by
  have h := ioFilter_push s t EventType.IO_COMPLETE pr pl
  unfold ioFilter at *
  rwa [List.filter_cons_of_pos (by simp)] at h

theorem easyFrame_push (s : State) (t : Nat) (ty : EventType) (pr : Option Nat)
    (pl : Option Payload) (hty : ty ≠ EventType.IO_COMPLETE) :
    EasyFrame s (push_event s t ty pr pl) :=
  ⟨⟨rfl, rfl, ioFilter_push_not s t ty pr pl hty⟩, rfl, rfl⟩

theorem easyFrame_setProc (s : State) (p : Process) : EasyFrame s (setProc s p) :=
  ⟨⟨rfl, rfl, List.Perm.refl _⟩, rfl, rfl⟩

theorem easyFrame_addProc (s : State) (p : Process) : EasyFrame s (addProc s p) :=
  ⟨⟨rfl, rfl, List.Perm.refl _⟩, rfl, rfl⟩

theorem easyFrame_fail (s : State) (msg : String) : EasyFrame s (fail s msg) :=
  ⟨⟨rfl, rfl, List.Perm.refl _⟩, rfl, rfl⟩

theorem easyFrame_create (s s' : State) (c : String) (pp : Option Nat) (p : Process)
    (h : create_process s c pp = some (s', p)) : EasyFrame s s' := by
  unfold create_process at h
  cases hc : lookupCmd s c with
  | none => rw [hc] at h; exact absurd h (by simp)
  | some scs =>
    rw [hc] at h
    dsimp only [] at h
    split at h
    next =>
      have hs : s' = addProc { s with pid_counter := s.pid_counter + 1 } _ :=
        ((congrArg Prod.fst (Option.some_inj.mp h)).symm : s' = _)
      rw [hs]
      exact ⟨⟨rfl, rfl, List.Perm.refl _⟩, rfl, rfl⟩
    next pp2 =>
      split at h
      next =>
        have hs : s' = addProc { s with pid_counter := s.pid_counter + 1 } _ :=
          ((congrArg Prod.fst (Option.some_inj.mp h)).symm : s' = _)
        rw [hs]
        exact ⟨⟨rfl, rfl, List.Perm.refl _⟩, rfl, rfl⟩
      next par _ =>
        have hs : s' = setProc (addProc { s with pid_counter := s.pid_counter + 1 } _) _ :=
          ((congrArg Prod.fst (Option.some_inj.mp h)).symm : s' = _)
        rw [hs]
        exact ⟨⟨rfl, rfl, List.Perm.refl _⟩, rfl, rfl⟩

theorem easyFrame_attempt (s : State) : EasyFrame s (attempt_dispatch s) := by
  unfold attempt_dispatch
  split
  · exact easyFrame_refl s
  · split
    · exact easyFrame_refl s
    · dsimp only []
      split
      next p _ =>
        refine ⟨⟨rfl, rfl, ?_⟩, rfl, rfl⟩
        exact ioFilter_push_not _ _ _ _ _ (by simp)
      next =>
        refine ⟨⟨rfl, rfl, ?_⟩, rfl, rfl⟩
        exact ioFilter_push_not _ _ _ _ _ (by simp)

theorem easyFrame_of_eq {s s' : State} (hd : s'.devices = s.devices)
    (hb : s'.bus_busy = s.bus_busy) (hq : s'.event_queue = s.event_queue)
    (hc : s'.cpu_busy_time = s.cpu_busy_time) (hr : s'.sum_ran_for = s.sum_ran_for) :
    EasyFrame s s' :=
  ⟨⟨hd, hb, by rw [hq]⟩, hc, hr⟩

theorem easyFrame_arrival (s : State) (ev : Event) : EasyFrame s (handle_arrival s ev) := by
  unfold handle_arrival
  split
  · exact easyFrame_fail s _
  · dsimp only []
    split
    all_goals
      first
        | exact ⟨⟨rfl, rfl, List.Perm.refl _⟩, rfl, rfl⟩
        | (refine easyFrame_trans ?_ (easyFrame_attempt _);
            exact ⟨⟨rfl, rfl, List.Perm.refl _⟩, rfl, rfl⟩)

theorem busFrame_dispatch_complete (s : State) (ev : Event) :
    BusFrame s (handle_dispatch_complete s ev) ∧
      ∃ r, (handle_dispatch_complete s ev).cpu_busy_time = s.cpu_busy_time + r ∧
        (handle_dispatch_complete s ev).sum_ran_for = s.sum_ran_for + r := by
  unfold handle_dispatch_complete
  split
  · exact ⟨(easyFrame_fail s _).1, 0, rfl, rfl⟩
  · dsimp only []
    constructor
    · refine ⟨rfl, rfl, ?_⟩
      exact ioFilter_push_not _ _ _ _ _ (by simp)
    · exact ⟨_, rfl, rfl⟩

theorem easyFrame_run_complete (s : State) (ev : Event) :
    EasyFrame s (handle_run_complete s ev) := by
  unfold handle_run_complete
  split
  · exact easyFrame_fail s _
  · dsimp only []
    repeat' split
    all_goals
      (refine easyFrame_trans ?_ (easyFrame_attempt _);
        first
          | exact ⟨⟨rfl, rfl, List.Perm.refl _⟩, rfl, rfl⟩
          | exact ⟨⟨rfl, rfl, ioFilter_push_not _ _ _ _ _ (by simp)⟩, rfl, rfl⟩)

theorem easyFrame_blocked_to_ready (s : State) (ev : Event) :
    EasyFrame s (handle_blocked_to_ready s ev) := by
  unfold handle_blocked_to_ready
  split
  · exact easyFrame_fail s _
  · dsimp only []
    repeat' split
    all_goals
      (refine easyFrame_trans ?_ (easyFrame_attempt _);
        exact ⟨⟨rfl, rfl, List.Perm.refl _⟩, rfl, rfl⟩)

theorem easyFrame_sleep_complete (s : State) (ev : Event) :
    EasyFrame s (handle_sleep_complete s ev) :=
  easyFrame_push _ _ _ _ _ (by simp)

theorem easyFrame_wait_complete (s : State) (ev : Event) :
    EasyFrame s (handle_wait_complete s ev) :=
  easyFrame_push _ _ _ _ _ (by simp)

theorem easyFrame_process_exit (s : State) (ev : Event) :
    EasyFrame s (handle_process_exit s ev) := by
  unfold handle_process_exit
  split
  · exact easyFrame_fail s _
  · dsimp only []
    repeat' split
    all_goals
      first
        | exact ⟨⟨rfl, rfl, List.Perm.refl _⟩, rfl, rfl⟩
        | exact ⟨⟨rfl, rfl, ioFilter_push_not _ _ _ _ _ (by simp)⟩, rfl, rfl⟩

/-! ## CPU-busy accounting: `cpu_busy_time` tracks `sum_ran_for` -/

theorem charge_try_start (s : State) :
    (try_start_bus_transfer s).cpu_busy_time = s.cpu_busy_time ∧
      (try_start_bus_transfer s).sum_ran_for = s.sum_ran_for := by
  unfold try_start_bus_transfer
  repeat' (first | split | dsimp only [])
  all_goals exact ⟨rfl, rfl⟩

theorem charge_syscall (s : State) (ev : Event) :
    (handle_syscall_invoked s ev).cpu_busy_time = s.cpu_busy_time ∧
      (handle_syscall_invoked s ev).sum_ran_for = s.sum_ran_for := by
  unfold handle_syscall_invoked
  split
  · exact ⟨rfl, rfl⟩
  · dsimp only []
    split
    · exact ⟨rfl, rfl⟩
    · split
      · -- spawn
        split
        · exact ⟨rfl, rfl⟩
        · split
          · exact ⟨rfl, rfl⟩
          next s1 child hcr =>
            have hc := easyFrame_create _ _ _ _ _ hcr
            split
            · exact ⟨hc.2.1, hc.2.2⟩
            · exact ⟨hc.2.1, hc.2.2⟩
      · split
        · -- read / write
          split
          next =>
            split
            · exact ⟨rfl, rfl⟩
            · split
              · exact ⟨rfl, rfl⟩
              · exact ⟨(charge_try_start _).1, (charge_try_start _).2⟩
          next => exact ⟨rfl, rfl⟩
        · split
          · -- sleep
            split
            · exact ⟨rfl, rfl⟩
            · split
              · exact ⟨rfl, rfl⟩
              · exact ⟨rfl, rfl⟩
          · split
            · -- wait
              split
              · exact ⟨rfl, rfl⟩
              · exact ⟨rfl, rfl⟩
            · split
              · exact ⟨rfl, rfl⟩
              · exact ⟨rfl, rfl⟩

theorem charge_io_complete (s : State) (ev : Event) :
    (handle_io_complete s ev).cpu_busy_time = s.cpu_busy_time ∧
      (handle_io_complete s ev).sum_ran_for = s.sum_ran_for := by
  unfold handle_io_complete
  repeat' (first | split | dsimp only [])
  all_goals
    first
      | exact ⟨rfl, rfl⟩
      | exact ⟨(charge_try_start _).1, (charge_try_start _).2⟩

theorem chargeOk_handle (s : State) (ev : Event) (h : chargeOk s) :
    chargeOk (handleEvent s ev) := by
  unfold chargeOk at *
  unfold handleEvent
  cases hty : ev.type <;> dsimp only []
  case PROCESS_ARRIVAL =>
    have hf := (easyFrame_arrival s ev).2
    omega
  case DISPATCH_COMPLETE =>
    obtain ⟨_, r, hc, hr⟩ := busFrame_dispatch_complete s ev
    omega
  case RUN_COMPLETE =>
    have hf := (easyFrame_run_complete s ev).2
    omega
  case SYSCALL_INVOKED =>
    have hf := charge_syscall s ev
    omega
  case IO_COMPLETE =>
    have hf := charge_io_complete s ev
    omega
  case SLEEP_COMPLETE =>
    have hf := (easyFrame_sleep_complete s ev).2
    omega
  case BLOCKED_TO_READY =>
    have hf := (easyFrame_blocked_to_ready s ev).2
    omega
  case PROCESS_EXIT =>
    have hf := (easyFrame_process_exit s ev).2
    omega
  case SPAWN => exact h
  case WAIT_COMPLETE =>
    have hf := (easyFrame_wait_complete s ev).2
    omega
  case CPU_AVAILABLE => exact h

theorem chargeOk_step (s : State) (h : chargeOk s) : chargeOk (stepOnce s) := by
  unfold stepOnce
  split
  · exact h
  · split
    · exact h
    next ev s1 heq =>
      refine chargeOk_handle _ ev ?_
      unfold chargeOk
      unfold pop_event at heq
      split at heq
      · exact absurd heq (by simp)
      next ev2 q2 heq2 =>
        have h1 : s1 = { s with event_queue := q2 } := by
          have h2 := Option.some_inj.mp heq
          exact (congrArg Prod.snd h2).symm
        rw [h1]
        exact h

theorem chargeOk_runFor (n : Nat) (s : State) (h : chargeOk s) :
    chargeOk (runFor n s) := by
  induction n generalizing s with
  | zero => exact h
  | succ k ih => exact ih _ (chargeOk_step s h)

/-! ## The bus invariant: `bus_busy` iff exactly one device `in_use`

The inductive invariant also tracks the pending `IO_COMPLETE` events: when
the bus is free there are none; when it is busy there is exactly one, and
its payload names the unique `in_use` device. -/

theorem filter_map_comm {α β : Type} (f : α → β) (p : β → Bool) (l : List α) :
    (l.map f).filter p = (l.filter (fun a => p (f a))).map f := by
  induction l with
  | nil => rfl
  | cons a t ih =>
    by_cases h : p (f a) = true <;> simp [h, ih]

theorem map_id_of_eq {α : Type} (l : List α) (f : α → α) (h : ∀ a ∈ l, f a = a) :
    l.map f = l := by
  induction l with
  | nil => rfl
  | cons a t ih =>
    simp only [List.map_cons]
    rw [h a (by simp), ih (fun x hx => h x (by simp [hx]))]

theorem filter_inuse_map (devs : List Device) (f : Device → Device)
    (h : ∀ d, (f d).in_use = d.in_use) :
    (devs.map f).filter (fun d => d.in_use) = (devs.filter (fun d => d.in_use)).map f := by
  rw [filter_map_comm]
  congr 1
  apply List.filter_congr
  intro d _
  rw [h d]

theorem names_map (devs : List Device) (f : Device → Device)
    (h : ∀ d, (f d).name = d.name) :
    (devs.map f).map (fun d => d.name) = devs.map (fun d => d.name) := by
  induction devs with
  | nil => rfl
  | cons a t ih => simp only [List.map_cons]; rw [h a, ih]

theorem filter_inuse_clear (devs : List Device) (d : Device)
    (hu : devs.filter (fun x => x.in_use) = [d]) :
    (devs.map (fun x => if x.name = d.name then { x with in_use := false } else x)).filter
      (fun x => x.in_use) = [] := by
  rw [List.filter_eq_nil_iff]
  intro y hy
  rw [List.mem_map] at hy
  obtain ⟨x, hx, rfl⟩ := hy
  by_cases hn : x.name = d.name
  · simp [hn]
  · rw [if_neg hn]
    intro hxu
    have hmem : x ∈ devs.filter (fun x => x.in_use) := List.mem_filter.mpr ⟨hx, hxu⟩
    rw [hu] at hmem
    have hxd : x = d := by simpa using hmem
    exact hn (by rw [hxd])

theorem filter_inuse_set_true (devs : List Device) (dev dev1 : Device)
    (huse : dev1.in_use = true)
    (hnodup : (devs.map (fun d => d.name)).Nodup) (hmem : dev ∈ devs)
    (hnone : devs.filter (fun d => d.in_use) = []) :
    (devs.map (fun d => if d.name = dev.name then dev1 else d)).filter
      (fun d => d.in_use) = [dev1] := by
  induction devs with
  | nil => simp at hmem
  | cons a t ih =>
    rw [List.map_cons] at hnodup
    have hnodup2 := List.nodup_cons.mp hnodup
    have hani : a.in_use = false := by
      by_cases h : a.in_use = true
      · rw [List.filter_cons_of_pos (by simp [h])] at hnone
        exact absurd hnone (by simp)
      · simpa using h
    have hnone2 : t.filter (fun d => d.in_use) = [] := by
      rw [List.filter_cons_of_neg (by simp [hani])] at hnone
      exact hnone
    by_cases hax : a.name = dev.name
    · have hnin : dev.name ∉ t.map (fun d => d.name) := by
        rw [← hax]; exact hnodup2.1
      have htid : t.map (fun d => if d.name = dev.name then dev1 else d) = t := by
        apply map_id_of_eq
        intro y hyt
        rw [if_neg]
        intro he
        exact hnin (by rw [← he]; exact List.mem_map_of_mem _ hyt)
      rw [List.map_cons, if_pos hax, htid, List.filter_cons_of_pos (by simp [huse]), hnone2]
    · have hdev : dev ∈ t := by
        rcases List.mem_cons.mp hmem with rfl | h2
        · exact absurd rfl hax
        · exact h2
      rw [List.map_cons, if_neg hax, List.filter_cons_of_neg (by simp [hani])]
      exact ih hnodup2.2 hdev hnone2

theorem businv_transfer {s s' : State} (h : BusInv s) (herr : s.error = none)
    (hf : BusFrame s s') : BusInv s' := by
  obtain ⟨hn, hcase⟩ := h
  obtain ⟨hd, hb, hq⟩ := hf
  refine ⟨by rw [hd]; exact hn, ?_⟩
  rcases hcase with ⟨hb0, hu, hio⟩ | ⟨hb1, d, hu, hio⟩
  · exact Or.inl ⟨by rw [hb, hb0], by rw [hd]; exact hu,
      fun _ => perm_eq_nil hq (hio herr)⟩
  · refine Or.inr ⟨by rw [hb, hb1], d, by rw [hd]; exact hu, fun _ => ?_⟩
    obtain ⟨rid, hm⟩ := hio herr
    exact ⟨rid, perm_map_eq_singleton hq hm⟩

theorem try_start_busy (s : State) (h : s.bus_busy = true) :
    try_start_bus_transfer s = s := by
  unfold try_start_bus_transfer
  rw [if_pos h]

theorem ioFilter_push_io_map (s : State) (t : Nat) (pr : Option Nat) (pl : Option Payload)
    (hq : ioFilter s.event_queue = []) :
    (ioFilter (push_event s t EventType.IO_COMPLETE pr pl).event_queue).map
      (fun e => e.payload) = [pl] := by
  have hp := ioFilter_push_io s t pr pl
  rw [hq] at hp
  rw [List.perm_singleton.mp hp]
  rfl

theorem businv_try_start_free (s : State)
    (hn : (s.devices.map (fun d => d.name)).Nodup)
    (hu : s.devices.filter (fun d => d.in_use) = [])
    (hb : s.bus_busy = false)
    (hq : ioFilter s.event_queue = []) :
    BusInv (try_start_bus_transfer s) := by
  have hsfree : BusInv s := ⟨hn, Or.inl ⟨hb, hu, fun _ => hq⟩⟩
  unfold try_start_bus_transfer
  rw [if_neg (by simp [hb])]
  dsimp only []
  split
  · exact hsfree
  · split
    · exact hsfree
    next dev rest hsort =>
      split
      · exact hsfree
      next req restQ hsq =>
        have hdevmem : dev ∈ s.devices := by
          have h1 : dev ∈ stableSort devKeyLe (s.devices.filter (fun d => !d.queue.isEmpty)) := by
            rw [hsort]; simp
          have h2 := (stableSort_perm devKeyLe _).mem_iff.mp h1
          exact (List.mem_filter.mp h2).1
        have hone := filter_inuse_set_true s.devices dev
          { dev with queue := restQ, in_use := true } rfl hn hdevmem hu
        have hnodup2 : ((s.devices.map (fun d =>
            if d.name = dev.name then { dev with queue := restQ, in_use := true } else d)).map
              (fun d => d.name)).Nodup := by
          rw [names_map _ _ (fun d => by
            by_cases h : d.name = dev.name
            · rw [if_pos h]; exact h.symm
            · rw [if_neg h])]
          exact hn
        split
        all_goals split
        all_goals
          first
            | exact ⟨hnodup2, Or.inr ⟨rfl, ⟨{ dev with queue := restQ, in_use := true }, hone,
                fun habs => absurd habs (by simp [fail])⟩⟩⟩
            | exact ⟨hnodup2, Or.inr ⟨rfl, ⟨{ dev with queue := restQ, in_use := true }, hone,
                fun _ => ⟨req.request_id, ioFilter_push_io_map _ _ _ _ hq⟩⟩⟩⟩

/-- A state whose devices were rewritten by a name- and `in_use`-preserving
map (the `read`/`write` queue append) keeps the invariant across
`try_start_bus_transfer`. -/
theorem businv_devupdate_try_start (s : State) (f : Device → Device)
    (hfn : ∀ d, (f d).name = d.name) (hfu : ∀ d, (f d).in_use = d.in_use)
    (h : BusInv s) (herr : s.error = none)
    (s' : State) (hd : s'.devices = s.devices.map f) (hb : s'.bus_busy = s.bus_busy)
    (hq : ioFilter s'.event_queue ~ ioFilter s.event_queue) :
    BusInv (try_start_bus_transfer s') := by
  obtain ⟨hn, hcase⟩ := h
  have hn2 : (s'.devices.map (fun d => d.name)).Nodup := by
    rw [hd, names_map _ _ hfn]; exact hn
  rcases hcase with ⟨hb0, hu, hio⟩ | ⟨hb1, d, hu, hio⟩
  · apply businv_try_start_free s' hn2
    · rw [hd, filter_inuse_map _ _ hfu, hu]
      rfl
    · rw [hb, hb0]
    · exact perm_eq_nil hq (hio herr)
  · rw [try_start_busy s' (by rw [hb, hb1])]
    refine ⟨hn2, Or.inr ⟨by rw [hb, hb1], ⟨f d, ?_, fun _ => ?_⟩⟩⟩
    · rw [hd, filter_inuse_map _ _ hfu, hu]
      rfl
    · obtain ⟨rid, hm⟩ := hio herr
      refine ⟨rid, ?_⟩
      rw [hfn d]
      exact perm_map_eq_singleton hq hm

/-- `_handle_io_complete` run on a reachable busy state: the popped event's
payload names the unique `in_use` device, and no other `IO_COMPLETE` is
pending. -/
theorem businv_io_handler (s : State) (ev : Event) (d : Device) (rid : Nat)
    (hn : (s.devices.map (fun x => x.name)).Nodup)
    (hu : s.devices.filter (fun x => x.in_use) = [d])
    (hq : ioFilter s.event_queue = [])
    (hpl : ev.payload = some (Payload.ioInfo d.name rid)) :
    BusInv (handle_io_complete s ev) := by
  unfold handle_io_complete
  rw [hpl]
  dsimp only []
  have hdm : d ∈ s.devices := (List.mem_filter.mp (by rw [hu]; simp)).1
  have hfind : (s.devices.find? (fun x => x.name = d.name)).isNone = false := by
    cases hf : s.devices.find? (fun x => x.name = d.name) with
    | none =>
      rw [List.find?_eq_none] at hf
      exact absurd (by simp : (fun (x : Device) => decide (x.name = d.name)) d = true) (by simpa using hf d hdm)
    | some _ => rfl
  rw [if_neg (by rw [hfind]; simp)]
  apply businv_try_start_free
  · show ((s.devices.map (fun x =>
        if x.name = d.name then { x with in_use := false } else x)).map
          (fun x => x.name)).Nodup
    rw [names_map _ _ (fun x => by by_cases h2 : x.name = d.name <;> simp [h2])]
    exact hn
  · exact filter_inuse_clear s.devices d hu
  · rfl
  · exact perm_eq_nil (ioFilter_push_not _ _ _ _ _ (by simp)) hq

theorem businv_syscall (s : State) (ev : Event) (h : BusInv s) (herr : s.error = none) :
    BusInv (handle_syscall_invoked s ev) := by
  unfold handle_syscall_invoked
  split
  · exact businv_transfer h herr (easyFrame_fail s _).1
  · dsimp only []
    split
    · exact h
    · split
      · -- spawn
        split
        · exact businv_transfer h herr (easyFrame_fail s _).1
        · split
          · exact businv_transfer h herr (easyFrame_fail s _).1
          next s1 child hcr =>
            have hc := (easyFrame_create _ _ _ _ _ hcr).1
            split
            · exact businv_transfer h herr (busFrame_trans hc
                ⟨rfl, rfl, ioFilter_push_not _ _ _ _ _ (by simp)⟩)
            · exact businv_transfer h herr (busFrame_trans hc
                ⟨rfl, rfl, ioFilter_push_not _ _ _ _ _ (by simp)⟩)
      · split
        · -- read / write
          split
          next =>
            split
            · exact businv_transfer h herr (easyFrame_fail s _).1
            · split
              · exact businv_transfer h herr (easyFrame_fail s _).1
              · refine businv_devupdate_try_start s _
                  (fun d => by split <;> rfl)
                  (fun d => by split <;> rfl)
                  h herr _ rfl rfl ?_
                exact ioFilter_push_not _ _ _ _ _ (by simp)
          next => exact businv_transfer h herr (easyFrame_fail s _).1
        · split
          · -- sleep
            split
            · exact businv_transfer h herr (easyFrame_fail s _).1
            · split
              · exact businv_transfer h herr (easyFrame_fail s _).1
              · exact businv_transfer h herr ⟨rfl, rfl, ioFilter_push_not _ _ _ _ _ (by simp)⟩
          · split
            · -- wait
              split
              · exact businv_transfer h herr (easyFrame_setProc s _).1
              · exact businv_transfer h herr ⟨rfl, rfl, ioFilter_push_not _ _ _ _ _ (by simp)⟩
            · split
              · -- exit
                exact businv_transfer h herr ⟨rfl, rfl, ioFilter_push_not _ _ _ _ _ (by simp)⟩
              · exact businv_transfer h herr (easyFrame_fail s _).1

theorem businv_handle_nonio (s : State) (ev : Event) (h : BusInv s)
    (herr : s.error = none) (hty : ev.type ≠ EventType.IO_COMPLETE) :
    BusInv (handleEvent s ev) := by
  unfold handleEvent
  cases hty2 : ev.type <;> dsimp only []
  case PROCESS_ARRIVAL => exact businv_transfer h herr (easyFrame_arrival s ev).1
  case DISPATCH_COMPLETE => exact businv_transfer h herr (busFrame_dispatch_complete s ev).1
  case RUN_COMPLETE => exact businv_transfer h herr (easyFrame_run_complete s ev).1
  case SYSCALL_INVOKED => exact businv_syscall s ev h herr
  case IO_COMPLETE => exact absurd hty2 hty
  case SLEEP_COMPLETE => exact businv_transfer h herr (easyFrame_sleep_complete s ev).1
  case BLOCKED_TO_READY => exact businv_transfer h herr (easyFrame_blocked_to_ready s ev).1
  case PROCESS_EXIT => exact businv_transfer h herr (easyFrame_process_exit s ev).1
  case SPAWN => exact h
  case WAIT_COMPLETE => exact businv_transfer h herr (easyFrame_wait_complete s ev).1
  case CPU_AVAILABLE => exact h

theorem businv_step_nonio_case (s : State) (ev : Event) (q2 : List Event)
    (h : BusInv s) (herr : s.error = none)
    (hperm : ev :: q2 ~ s.event_queue) (hty : ev.type ≠ EventType.IO_COMPLETE) :
    BusInv (handleEvent { s with event_queue := q2, current_time := ev.time } ev) := by
  have hf : ioFilter (ev :: q2) ~ ioFilter s.event_queue := hperm.filter _
  unfold ioFilter at hf
  rw [List.filter_cons_of_neg (by simp [hty])] at hf
  have hmid : BusInv { s with event_queue := q2, current_time := ev.time } :=
    businv_transfer h herr ⟨rfl, rfl, hf⟩
  exact businv_handle_nonio _ ev hmid herr hty

theorem businv_step (s : State) (h : BusInv s) : BusInv (stepOnce s) := by
  unfold stepOnce
  split
  · exact h
  next herrs =>
    have herr : s.error = none := by
      cases he : s.error
      · rfl
      · rw [he] at herrs; exact absurd (by simp) herrs
    split
    · exact h
    next ev s1 heq =>
      unfold pop_event at heq
      split at heq
      · exact absurd heq (by simp)
      next ev2 q2 hpop =>
        have hev : ev2 = ev := congrArg Prod.fst (Option.some_inj.mp heq)
        have hs1 : s1 = { s with event_queue := q2 } :=
          (congrArg Prod.snd (Option.some_inj.mp heq)).symm
        subst hev
        rw [hs1]
        have hperm : ev2 :: q2 ~ s.event_queue := heappop_perm _ _ _ hpop
        by_cases hty : ev2.type = EventType.IO_COMPLETE
        · -- the popped event is the pending IO_COMPLETE
          have hmem : ev2 ∈ s.event_queue := hperm.mem_iff.mp (by simp)
          have hmemio : ev2 ∈ ioFilter s.event_queue := by
            unfold ioFilter
            exact List.mem_filter.mpr ⟨hmem, by simp [hty]⟩
          rcases h.2 with ⟨_, _, hio⟩ | ⟨hb1, d, hu, hio⟩
          · rw [hio herr] at hmemio
            exact absurd hmemio (by simp)
          · obtain ⟨rid, hm⟩ := hio herr
            have hlen : (ioFilter s.event_queue).length = 1 := by
              have h2 := congrArg List.length hm
              simpa using h2
            obtain ⟨e, he⟩ := List.length_eq_one.mp hlen
            have hep : e.payload = some (Payload.ioInfo d.name rid) := by
              rw [he] at hm
              simpa using hm
            have heve : ev2 = e := by
              rw [he] at hmemio
              simpa using hmemio
            have hq2 : ioFilter q2 = [] := by
              have hf : ioFilter (ev2 :: q2) ~ ioFilter s.event_queue := hperm.filter _
              rw [he] at hf
              unfold ioFilter at hf ⊢
              rw [List.filter_cons_of_pos (by simp [hty])] at hf
              have hl := hf.length_eq
              simp only [List.length_cons, List.length_nil] at hl
              exact List.length_eq_zero.mp (by omega)
            have hhe : handleEvent { s with event_queue := q2, current_time := ev2.time } ev2 =
                handle_io_complete { s with event_queue := q2, current_time := ev2.time } ev2 := by
              unfold handleEvent
              rw [hty]
            rw [hhe]
            exact businv_io_handler _ ev2 d rid h.1 hu hq2 (by rw [heve]; exact hep)
        · exact businv_step_nonio_case s ev2 q2 h herr hperm hty

theorem businv_runFor (n : Nat) (s : State) (h : BusInv s) : BusInv (runFor n s) := by
  induction n generalizing s with
  | zero => exact h
  | succ k ih => exact ih _ (businv_step s h)

theorem buildDevices_nodup (ds : List Device) :
    ∀ acc : List Device, (acc.map (fun d => d.name)).Nodup →
      ((ds.foldl dictInsertDevice acc).map (fun d => d.name)).Nodup := by
  induction ds with
  | nil => intro acc h; exact h
  | cons d t ih =>
    intro acc h
    apply ih
    unfold dictInsertDevice
    split
    · rw [names_map _ _ (fun e => by by_cases h2 : e.name = d.name <;> simp [h2])]
      exact h
    next hany =>
      have hperm : (acc ++ [d]).map (fun x => x.name) ~ d.name :: acc.map (fun x => x.name) := by
        rw [List.map_append]
        exact List.perm_append_singleton _ _
      rw [hperm.nodup_iff, List.nodup_cons]
      refine ⟨?_, h⟩
      rw [List.mem_map]
      rintro ⟨e, he, hne⟩
      exact hany (List.any_eq_true.mpr ⟨e, he, by simp [hne]⟩)

theorem buildDevices_clear (ds : List Device) (hds : ∀ d ∈ ds, d.in_use = false) :
    ∀ acc : List Device, (∀ x ∈ acc, x.in_use = false) →
      ∀ x ∈ ds.foldl dictInsertDevice acc, x.in_use = false := by
  induction ds with
  | nil => intro acc hacc x hx; exact hacc x hx
  | cons d t ih =>
    intro acc hacc
    apply ih (fun y hy => hds y (by simp [hy]))
    intro x hx
    unfold dictInsertDevice at hx
    split at hx
    · rw [List.mem_map] at hx
      obtain ⟨e, he, rfl⟩ := hx
      by_cases h2 : e.name = d.name
      · rw [if_pos h2]
        exact hds d (by simp)
      · rw [if_neg h2]
        exact hacc e he
    · rcases List.mem_append.mp hx with h2 | h2
      · exact hacc x h2
      · have : x = d := by simpa using h2
        rw [this]
        exact hds d (by simp)

theorem businv_initState (devs : List Device) (cmds : List (String × List SystemCall))
    (tq : Nat) (hclear : ∀ d ∈ devs, d.in_use = false) :
    BusInv (initState devs cmds tq) := by
  refine ⟨buildDevices_nodup devs [] (by simp), Or.inl ⟨rfl, ?_, fun _ => rfl⟩⟩
  rw [List.filter_eq_nil_iff]
  intro d hd
  have h2 := buildDevices_clear devs hclear [] (by simp) d hd
  simp [h2]

theorem businv_start (s : State) (h : BusInv s) (herr : s.error = none) :
    BusInv (start s) := by
  unfold start
  split
  · exact h
  · split
    · exact businv_transfer h herr (easyFrame_fail s _).1
    next s1 proc hcr =>
      exact businv_transfer h herr (busFrame_trans (easyFrame_create _ _ _ _ _ hcr).1
        ⟨rfl, rfl, ioFilter_push_not _ _ _ _ _ (by simp)⟩)

/-! ## Auxiliary facts for the claim theorems -/

theorem heappush_nil (item : Event) : heappush [] item = [item] := rfl

theorem chargeOk_start (s : State) (h : chargeOk s) : chargeOk (start s) := by
  unfold start
  split
  · exact h
  · split
    · exact h
    next s1 proc hcr =>
      have hc := (easyFrame_create _ _ _ _ _ hcr).2
      unfold chargeOk at *
      show s1.cpu_busy_time = s1.sum_ran_for
      omega

theorem dictInsertCmd_head (l : List (String × List SystemCall))
    (kv : String × List SystemCall) (n : String) (v : List SystemCall)
    (t : List (String × List SystemCall)) (hl : l = (n, v) :: t) :
    ∃ v2 t2, dictInsertCmd l kv = (n, v2) :: t2 := by
  subst hl
  unfold dictInsertCmd
  split
  · by_cases h2 : n = kv.1
    · subst h2
      refine ⟨kv.2, t.map (fun e => if e.1 = kv.1 then kv else e), ?_⟩
      rw [List.map_cons, if_pos rfl]
    · refine ⟨v, t.map (fun e => if e.1 = kv.1 then kv else e), ?_⟩
      rw [List.map_cons, if_neg (by simpa using h2)]
  · exact ⟨v, t ++ [kv], rfl⟩

theorem buildCommands_aux (rest : List (String × List SystemCall)) :
    ∀ (acc : List (String × List SystemCall)) (n : String) (v : List SystemCall)
      (t : List (String × List SystemCall)), acc = (n, v) :: t →
      ∃ v2 t2, rest.foldl dictInsertCmd acc = (n, v2) :: t2 := by
  induction rest with
  | nil =>
    intro acc n v t h
    refine ⟨v, t, ?_⟩
    rw [h]
    rfl
  | cons kv rs ih =>
    intro acc n v t h
    obtain ⟨v2, t2, h2⟩ := dictInsertCmd_head acc kv n v t h
    exact ih (dictInsertCmd acc kv) n v2 t2 h2

theorem start_spec (s : State) (name : String) (v : List SystemCall)
    (t : List (String × List SystemCall)) (hc : s.commands = (name, v) :: t)
    (hq : s.event_queue = []) (hpt : s.process_table = []) (hpid : s.pid_counter = 1) :
    (lookupProc (start s) 1).map (fun p => (p.command_name, p.pid)) = some (name, 1) ∧
    (start s).event_queue.map (fun e => (e.time, e.type, e.process)) =
      [(0, EventType.PROCESS_ARRIVAL, some 1)] := by
  have hcp : create_process s name none =
      some (addProc { s with pid_counter := s.pid_counter + 1 }
              { pid := s.pid_counter, ppid := none, command_name := name,
                syscalls := stableSort leWhen v, pc := 0, state := PState.NEW,
                cpu_time_executed := 0, children := [], waiting_for_children := false,
                blocked_reason := none },
            { pid := s.pid_counter, ppid := none, command_name := name,
              syscalls := stableSort leWhen v, pc := 0, state := PState.NEW,
              cpu_time_executed := 0, children := [], waiting_for_children := false,
              blocked_reason := none }) := by
    unfold create_process lookupCmd
    rw [hc, List.find?_cons_of_pos _ (by simp)]
    rfl
  unfold start
  rw [hc]
  dsimp only []
  rw [hcp]
  dsimp only []
  constructor
  · simp [lookupProc, push_event, addProc, hpt, hpid]
  · simp [push_event, addProc, hq, hpid, heappush_nil]

/-! ## Claim theorems -/

/-- **C1** (code bug, evidence).  Run the engine on a single command whose
only syscall is due at CPU offset 30, with quantum 100.  After the arrival,
dispatch-complete and run-complete steps: the single scheduled slice ran for
30 μs (`sum_ran_for = 30`, charged from `run_for = min(quantum, 30)`), yet
`_handle_run_complete` added the full quantum (100, not the slice's
`ran_for` 30) to `cpu_time_executed`; and although `time_until_next_syscall`
is 0 after the update, the queue holds `BLOCKED_TO_READY` at `now + 10`,
not `SYSCALL_INVOKED(p)` at `now` — both halves of the claim fail, because
the handler's conditional expression adds `time_quantum` in both arms and
tests the pre-slice `time_until_next_syscall`. -/
theorem c1_run_complete_charges_full_quantum :
    ((lookupProc (runFor 3 (start (initState [] cmdsA30 100))) 1).map
      (fun p => (p.cpu_time_executed, p.time_until_next_syscall)) = some (100, some 0)) ∧
    (runFor 3 (start (initState [] cmdsA30 100))).sum_ran_for = 30 ∧
    (runFor 3 (start (initState [] cmdsA30 100))).event_queue.map
      (fun e => (e.time, e.type)) = [(45, EventType.BLOCKED_TO_READY)] := by
  exact ⟨rfl, rfl, rfl⟩

/-- **C2** (counterexample).  A full run of one immediately-exiting command:
the queue drains without error after exactly one dispatch
(`dispatch_count = 1`) and one zero-length slice (`sum_ran_for = 0`), and
`cpu_busy_time = 0 ≠ CONTEXT_SWITCH_IN * 1 + 0 = 5`: `_attempt_dispatch`
never charges `CONTEXT_SWITCH_IN` to `cpu_busy_time`. -/
theorem c2_counterexample_no_ctx_in_charge :
    (simulate [] cmdsA0 100 20).event_queue = [] ∧
    (simulate [] cmdsA0 100 20).error = none ∧
    (simulate [] cmdsA0 100 20).dispatch_count = 1 ∧
    (simulate [] cmdsA0 100 20).sum_ran_for = 0 ∧
    (simulate [] cmdsA0 100 20).cpu_busy_time = 0 ∧
    ¬((simulate [] cmdsA0 100 20).cpu_busy_time =
      CONTEXT_SWITCH_IN * (simulate [] cmdsA0 100 20).dispatch_count +
        (simulate [] cmdsA0 100 20).sum_ran_for) := by
  refine ⟨rfl, rfl, rfl, rfl, rfl, ?_⟩
  decide

/-- **C2** (amended).  At every point of every simulation run,
`cpu_busy_time` equals the sum over all run slices of that slice's
`run_for` (the ghost `sum_ran_for`, accumulated exactly where
`_handle_dispatch_complete` charges `cpu_busy_time`); and
`_attempt_dispatch` charges nothing to `cpu_busy_time`. -/
theorem c2_cpu_busy_equals_sum_of_slices :
    (∀ (devs : List Device) (cmds : List (String × List SystemCall)) (tq fuel : Nat),
      (simulate devs cmds tq fuel).cpu_busy_time = (simulate devs cmds tq fuel).sum_ran_for) ∧
    (∀ s : State, (attempt_dispatch s).cpu_busy_time = s.cpu_busy_time) := by
  constructor
  · intro devs cmds tq fuel
    exact chargeOk_runFor fuel _ (chargeOk_start _ rfl)
  · intro s
    exact (easyFrame_attempt s).2.1

/-- **C3** (code bug, evidence).  Three `System.push_event` calls with times
1, 1, 0 (insertion counters 1, 2, 3) followed by three pops return
`(0,3), (1,2), (1,1)`: the two time-1 events are processed in *reverse*
insertion order, and the popped `(time, tiebreak)` sequence is not
lexicographically non-decreasing — `Event.order` is `field(compare=False)`,
so the tiebreak counter never takes part in the heap comparison. -/
theorem c3_same_time_events_pop_out_of_insertion_order :
    popPairs 3 (pushTimes (initState [] [] 100) [1, 1, 0]).event_queue =
      [(0, 3), (1, 2), (1, 1)] ∧
    ¬ List.Chain' (fun a b : Nat × Nat => a.1 < b.1 ∨ (a.1 = b.1 ∧ a.2 < b.2))
      (popPairs 3 (pushTimes (initState [] [] 100) [1, 1, 0]).event_queue) := by
  refine ⟨rfl, ?_⟩
  intro hch
  rw [(rfl : popPairs 3 (pushTimes (initState [] [] 100) [1, 1, 0]).event_queue =
      [(0, 3), (1, 2), (1, 1)])] at hch
  rcases List.chain'_cons.mp hch with ⟨_, hch2⟩
  rcases List.chain'_cons.mp hch2 with ⟨hrel, _⟩
  rcases hrel with h1 | ⟨h1, h2⟩
  · exact absurd h1 (by decide)
  · exact absurd h2 (by decide)

/-- **C4** (code bug, evidence).  Parent spawns a child at offset 0 and
would exit at offset 10.  Right after the spawn `SYSCALL_INVOKED` step
(step 4): the child (pid 2) exists with parent pid 1 and its
`PROCESS_ARRIVAL` is queued at `now` — but the queue holds *no*
`RUN_COMPLETE` for the parent and `scheduler.running` is `none` (it was
cleared by `_handle_run_complete`, and the spawn handler reschedules
nothing).  The full run then drains at t = 10 with the parent still in
state `RUNNING` at `pc = 1`: its `exit` is never reached. -/
theorem c4_spawn_parent_never_rescheduled :
    (lookupProc (runFor 4 (start (initState [] cmdsSpawnTree 100))) 2).map (fun p => p.ppid)
      = some (some 1) ∧
    (runFor 4 (start (initState [] cmdsSpawnTree 100))).event_queue.map
      (fun e => (e.time, e.type, e.process)) = [(5, EventType.PROCESS_ARRIVAL, some 2)] ∧
    (runFor 4 (start (initState [] cmdsSpawnTree 100))).scheduler.running = none ∧
    (simulate [] cmdsSpawnTree 100 40).event_queue = [] ∧
    (lookupProc (simulate [] cmdsSpawnTree 100 40) 1).map (fun p => (p.pc, p.state))
      = some (1, PState.RUNNING) ∧
    (simulate [] cmdsSpawnTree 100 40).current_time = 10 := by
  exact ⟨rfl, rfl, rfl, rfl, rfl, rfl⟩

/-- **C5** (counterexample).  With command table `boot, shell` (in that
textual order), `start()` creates the entry process from `boot` even though
`"shell"` is present in the table: the code takes
`next(iter(self.commands.keys()))` unconditionally. -/
theorem c5_counterexample_shell_ignored :
    (lookupProc (start (initState [] cmdsShellSecond 100)) 1).map (fun p => p.command_name)
      = some "boot" ∧
    ("shell", [(⟨0, "exit", []⟩ : SystemCall)]) ∈ (initState [] cmdsShellSecond 100).commands := by
  exact ⟨rfl, by decide⟩

/-- **C5** (amended).  For every non-empty command table, `start()` creates
the entry process (pid 1) from the *first* command in the file's textual
order — the name `"shell"` gets no special treatment — and enqueues that
process's `PROCESS_ARRIVAL` at time 0. -/
theorem c5_start_uses_first_command (devs : List Device) (tq : Nat) (name : String)
    (scs : List SystemCall) (rest : List (String × List SystemCall)) :
    (lookupProc (start (initState devs ((name, scs) :: rest) tq)) 1).map
        (fun p => (p.command_name, p.pid)) = some (name, 1) ∧
    (start (initState devs ((name, scs) :: rest) tq)).event_queue.map
        (fun e => (e.time, e.type, e.process)) = [(0, EventType.PROCESS_ARRIVAL, some 1)] := by
  obtain ⟨v2, t2, hb⟩ := buildCommands_aux rest [(name, scs)] name scs [] rfl
  exact start_spec _ name v2 t2 hb rfl rfl rfl

/-- **C6** (counterexample).  Run the read scenario to the `IO_COMPLETE`
step (step 6, at t = 100025).  The handler did set `device.in_use := false`,
`bus_busy := false` and `bus_owner := none`, and did enqueue a
neutral-reason (`{'from': 'io'}`) `BLOCKED_TO_READY` — but at
`100035 = now + CONTEXT_SWITCH_MOVES`, and *no* `BLOCKED_TO_READY` exists
at the current time: the claim's "at the current time (not at a later
time)" is false. -/
theorem c6_counterexample_unblock_delayed :
    (runFor 6 (start (initState [devDisk] cmdsRead 100))).current_time = 100025 ∧
    (runFor 6 (start (initState [devDisk] cmdsRead 100))).bus_busy = false ∧
    (runFor 6 (start (initState [devDisk] cmdsRead 100))).bus_owner = none ∧
    (runFor 6 (start (initState [devDisk] cmdsRead 100))).devices.map
      (fun d => (d.name, d.in_use)) = [("disk", false)] ∧
    (runFor 6 (start (initState [devDisk] cmdsRead 100))).event_queue.map
      (fun e => (e.time, e.type, e.payload))
      = [(100035, EventType.BLOCKED_TO_READY, some (Payload.fromTag "io"))] ∧
    ¬(∃ e ∈ (runFor 6 (start (initState [devDisk] cmdsRead 100))).event_queue,
        e.type = EventType.BLOCKED_TO_READY ∧
          e.time = (runFor 6 (start (initState [devDisk] cmdsRead 100))).current_time) := by
  refine ⟨rfl, rfl, rfl, rfl, rfl, ?_⟩
  decide

/-- **C6** (amended).  For every `IO_COMPLETE` event whose payload names a
device present in the table: the handler clears that device's `in_use`,
clears `bus_busy` and `bus_owner`, enqueues the neutral-reason
(`{'from': 'io'}`) `BLOCKED_TO_READY(p)` at `now + CONTEXT_SWITCH_MOVES`
(10 μs later, not at `now`), and then invokes the bus-transfer start
routine on the result. -/
theorem c6_io_complete_frees_and_unblocks (s : State) (ev : Event) (dn : String) (rid : Nat)
    (hpl : ev.payload = some (Payload.ioInfo dn rid))
    (hfind : (s.devices.find? (fun d => d.name = dn)).isNone = false) :
    handle_io_complete s ev =
      try_start_bus_transfer
        (push_event
          { s with
            devices := s.devices.map (fun d =>
              if d.name = dn then { d with in_use := false } else d),
            bus_busy := false, bus_owner := none }
          (s.current_time + CONTEXT_SWITCH_MOVES) EventType.BLOCKED_TO_READY ev.process
          (some (Payload.fromTag "io"))) := by
  unfold handle_io_complete
  rw [hpl]
  dsimp only []
  rw [if_neg (by rw [hfind]; simp)]

/-- Witness for `c6_io_complete_frees_and_unblocks` at a concrete busy
state. -/
theorem c6_io_complete_frees_and_unblocks_witness :
    handle_io_complete c6State c6Event =
      try_start_bus_transfer
        (push_event
          { c6State with
            devices := c6State.devices.map (fun d =>
              if d.name = "disk" then { d with in_use := false } else d),
            bus_busy := false, bus_owner := none }
          (c6State.current_time + CONTEXT_SWITCH_MOVES) EventType.BLOCKED_TO_READY
          c6Event.process (some (Payload.fromTag "io"))) :=
  c6_io_complete_frees_and_unblocks c6State c6Event "disk" 65536 rfl rfl

/-- **C7** (confirmed).  Whenever the bus is idle and some device queue is
nonempty — i.e. the stable sort of the candidates by
`(-read_speed, min enqueue_time)` is `dev :: rest` and `dev`'s queue sorts
to `req :: restQ` — the arbiter's chosen `dev` has the largest `read_speed`
among all devices with pending requests (ties broken by the minimum
`enqueue_time` in the queue), regardless of whether any pending op is a
read or a write; the dequeued `req` has the smallest `enqueue_time` in
`dev`'s queue; and the handler marks `dev.in_use` and `bus_busy` true and
schedules `IO_COMPLETE` at
`now + BUS_ACQUIRE_DELAY + ceil(size * 1_000_000 / op_speed)` (the exact
ceiling `(size * 1000000 + speed - 1) / speed` embeds the float
`math.ceil(size / speed * 1_000_000)`.) -/
theorem c7_bus_arbiter_selection (s : State) (dev : Device) (rest : List Device)
    (req : DevReq) (restQ : List DevReq)
    (hb : s.bus_busy = false)
    (hsort : stableSort devKeyLe (s.devices.filter (fun d => !d.queue.isEmpty)) = dev :: rest)
    (hsq : stableSort reqLe dev.queue = req :: restQ)
    (hspeed : (if req.op = "read" then dev.read_speed else dev.write_speed) ≠ 0) :
    (∀ d ∈ s.devices, d.queue ≠ [] →
      d.read_speed < dev.read_speed ∨
        (dev.read_speed = d.read_speed ∧ minEnq dev.queue ≤ minEnq d.queue)) ∧
    req ∈ dev.queue ∧
    (∀ r ∈ dev.queue, req.enqueue_time ≤ r.enqueue_time) ∧
    try_start_bus_transfer s =
      push_event
        { s with
          devices := s.devices.map (fun d =>
            if d.name = dev.name then { dev with queue := restQ, in_use := true } else d),
          bus_busy := true, bus_owner := some req.pid }
        (s.current_time + BUS_ACQUIRE_DELAY +
          (req.size * 1000000 +
              (if req.op = "read" then dev.read_speed else dev.write_speed) - 1) /
            (if req.op = "read" then dev.read_speed else dev.write_speed))
        EventType.IO_COMPLETE (some req.pid)
        (some (Payload.ioInfo dev.name req.request_id)) := by
  refine ⟨?_, ?_, ?_, ?_⟩
  · intro d hd hq
    have hmem : d ∈ s.devices.filter (fun d2 => !d2.queue.isEmpty) :=
      List.mem_filter.mpr ⟨hd, by simp [hq]⟩
    have hle := stableSort_head_le devKeyLe devKeyLe_trans devKeyLe_total _ dev rest hsort d hmem
    unfold devKeyLe at hle
    simp only [Bool.or_eq_true, Bool.and_eq_true, decide_eq_true_eq] at hle
    exact hle
  · have hmem : req ∈ stableSort reqLe dev.queue := by rw [hsq]; simp
    exact (stableSort_perm reqLe dev.queue).mem_iff.mp hmem
  · intro r hr
    have hle := stableSort_head_le reqLe reqLe_trans reqLe_total _ req restQ hsq r hr
    unfold reqLe at hle
    simpa using hle
  · unfold try_start_bus_transfer
    rw [if_neg (by simp [hb])]
    dsimp only []
    have hne : (s.devices.filter (fun d => !d.queue.isEmpty)).isEmpty = false := by
      cases hcv : s.devices.filter (fun d => !d.queue.isEmpty) with
      | nil =>
        rw [hcv] at hsort
        simp [stableSort] at hsort
      | cons a t => rfl
    rw [if_neg (by rw [hne]; simp)]
    rw [hsort]
    dsimp only []
    rw [hsq]
    dsimp only []
    rw [if_neg hspeed]

/-- Witness for `c7_bus_arbiter_selection`: on `c7State` the bus is idle,
both devices have pending requests, and the fast-read device's pending
*write* is selected. -/
theorem c7_bus_arbiter_selection_witness :
    c7State.bus_busy = false ∧ (⟨6, 1, "write", 10, 9⟩ : DevReq) ∈ c7fast.queue :=
  ⟨rfl, (c7_bus_arbiter_selection c7State c7fast [c7slow] ⟨6, 1, "write", 10, 9⟩ []
    rfl rfl rfl (by decide)).2.1⟩

/-- **C8** (confirmed).  For every machine description (devices as built by
`parse_sysconfig` via `Device.__init__`, i.e. starting not `in_use`),
every command table, quantum and fuel: at every step of the run,
`bus_busy` is true iff exactly one device has `in_use = true`.  The proof
is an inductive invariant (`BusInv`) preserved by every event handler — in
particular by the two operations that set or clear `bus_busy`
(`_try_start_bus_transfer` and `_handle_io_complete`). -/
theorem c8_bus_busy_iff_unique_in_use (specs : List (String × Nat × Nat))
    (cmds : List (String × List SystemCall)) (tq fuel : Nat) :
    ((simulate (specs.map (fun sp => mkDevice sp.1 sp.2.1 sp.2.2)) cmds tq fuel).bus_busy = true ↔
      ((simulate (specs.map (fun sp => mkDevice sp.1 sp.2.1 sp.2.2)) cmds tq fuel).devices.filter
        (fun d => d.in_use)).length = 1) := by
  have hinv : BusInv (simulate (specs.map (fun sp => mkDevice sp.1 sp.2.1 sp.2.2)) cmds tq fuel) := by
    apply businv_runFor
    apply businv_start
    · apply businv_initState
      intro d hd
      rw [List.mem_map] at hd
      obtain ⟨sp, _, rfl⟩ := hd
      rfl
    · rfl
  rcases hinv.2 with ⟨hb0, hu, _⟩ | ⟨hb1, d, hu, _⟩
  · constructor
    · intro hb
      rw [hb0] at hb
      exact absurd hb (by simp)
    · intro hl
      rw [hu] at hl
      simp at hl
  · constructor
    · intro _
      rw [hu]
      rfl
    · intro _
      exact hb1

/-- **C9** (code bug, evidence).  A command calling `wait` at offset 0 with
no children, then `exit` at offset 20: the syscall handler advances `pc` to
1 and schedules nothing (no blocking event — the queue is empty right
away), but the process does *not* retain the CPU: `scheduler.running` is
`none`, the run drains at t = 5 with the process still in state `RUNNING`,
and its `exit` is never invoked.  (The repository's own
`test_scenarios.py` expects `measurements ≈ 104` with `cpu ≈ 67` for this
program; the code produces `5` and `0`.) -/
theorem c9_wait_no_children_loses_cpu :
    (lookupProc (simulate [] cmdsWaitNoChildren 100 20) 1).map
      (fun p => (p.pc, p.state, p.blocked_reason)) = some (1, PState.RUNNING, none) ∧
    (simulate [] cmdsWaitNoChildren 100 20).scheduler.running = none ∧
    (simulate [] cmdsWaitNoChildren 100 20).event_queue = [] ∧
    (simulate [] cmdsWaitNoChildren 100 20).current_time = 5 ∧
    (simulate [] cmdsWaitNoChildren 100 20).error = none := by
  exact ⟨rfl, rfl, rfl, rfl, rfl⟩

/-- **C10** (confirmed).  Handling a `spawn` syscall whose command-name
argument is absent from the command table raises an uncaught `KeyError`
inside `create_process` (`self.commands[command_name]`), recorded as the
sticky `error`; and once `error` is set the run loop makes no further
progress — the simulation aborts, exactly like the other fatal cases
(unknown device in `read`/`write`, unknown syscall name). -/
theorem c10_spawn_unknown_command_fatal :
    (∀ (s : State) (ev : Event) (pid : Nat) (p : Process) (w : Nat) (cmd : String)
      (args : List String),
      ev.process = some pid → lookupProc s pid = some p →
      p.current_syscall = some ⟨w, "spawn", args⟩ → args[0]? = some cmd →
      lookupCmd s cmd = none →
      handle_syscall_invoked s ev = fail s ("KeyError: " ++ cmd)) ∧
    (∀ (s : State) (n : Nat), s.error.isSome = true → runFor n s = s) := by
  constructor
  · intro s ev pid p w cmd args hev hlp hsc hargs hcmd
    have hbind : ev.process.bind (lookupProc s) = some p := by
      rw [hev]
      exact hlp
    have hcp : create_process s cmd (some p.pid) = none := by
      unfold create_process
      rw [hcmd]
    unfold handle_syscall_invoked
    rw [hbind]
    dsimp only []
    rw [hsc]
    dsimp only []
    rw [if_pos rfl, hargs]
    dsimp only []
    rw [hcp]
  · intro s n h
    induction n with
    | zero => rfl
    | succ k ih =>
      show runFor k (stepOnce s) = s
      rw [show stepOnce s = s from by unfold stepOnce; rw [if_pos h]]
      exact ih

/-- Witness for `c10_spawn_unknown_command_fatal` at a concrete state whose
running process spawns the unknown command `nosuch`. -/
theorem c10_spawn_unknown_command_fatal_witness :
    handle_syscall_invoked c10State c10Event = fail c10State "KeyError: nosuch" :=
  c10_spawn_unknown_command_fatal.1 c10State c10Event 1 c10Proc 0 "nosuch" ["nosuch"]
    rfl rfl rfl rfl rfl

end MyScheduler
